import Mathlib

/-!
Verification of the batch-orchestration core of the hefeng-banana-webui
repository (`webui.py`) against its natural-language specification.

The Python source is shallowly embedded: pure helpers become Lean
functions, the module-level upload cache becomes an explicitly threaded
map (`Cache`), the external collaborators (Asset Store, Generation
Service) and the cancellation flag become oracle parameters, and the
background orchestration functions become sequential interpretations
(worker-pool completions are processed in submission order, which is one
admissible schedule of the thread pool).  Wall-clock readings
(`time.time()`) are not modelled; `time.sleep` backoffs are recorded as
ghost data (the list of requested sleep durations in seconds).
Combination modes are kept as the literal strings used by the source
("相乘" = Multiply, "相加" = Add).
-/

namespace Banana

/-- Embedding of `get_api_key_for_task` (webui.py lines 63-68):
round-robin credential assignment.  `task_id` is an `Int` because Python
integers are signed and `%` is Python's flooring modulo (`Int.emod`
agrees with it for a positive modulus).  The `raise ValueError` on an
empty key list becomes `Except.error`. -/
def get_api_key_for_task (task_id : Int) (all_keys : List String) : Except String String :=
  match all_keys with
  | [] => .error "没有可用的API密钥"
  | k :: ks =>
    let keys := k :: ks
    .ok (keys.get ⟨((task_id - 1) % (keys.length : Int)).toNat, by
      have hpos : (0 : Int) < (keys.length : Int) := by
        exact_mod_cast Nat.succ_pos ks.length
      have hnn : (0 : Int) ≤ (task_id - 1) % (keys.length : Int) :=
        Int.emod_nonneg _ (ne_of_gt hpos)
      have hlt : (task_id - 1) % (keys.length : Int) < (keys.length : Int) :=
        Int.emod_lt_of_pos _ hpos
      exact (Int.toNat_lt hnn).mpr hlt⟩)

/-- Cartesian product of a list of option lists in `itertools.product`
order (first factor varies slowest), with `product()` of zero iterables
yielding the single empty tuple. -/
def cartProduct {α : Type} : List (List α) → List (List α)
  | [] => [[]]
  | l :: rest => l.flatMap (fun x => (cartProduct rest).map (fun t => x :: t))

/-- Embedding of `calculate_image_combinations` (webui.py lines
1125-1163): drop pages with no images, branch per image for Multiply
("相乘") pages, keep the whole bundle for Add pages, take the Cartesian
product across pages and flatten each tuple. -/
def calculate_image_combinations {α : Type} (pages_data : List (List α × String)) :
    List (List α) :=
  let valid_pages := pages_data.filter (fun p => !p.1.isEmpty)
  if valid_pages.isEmpty then []
  else
    let page_combinations := valid_pages.map (fun p =>
      if p.2 = "相乘" then p.1.map (fun img => [img]) else [p.1])
    (cartProduct page_combinations).map (fun combo => combo.flatten)

lemma cartProduct_length {α : Type} (ls : List (List α)) :
    (cartProduct ls).length = (ls.map List.length).prod := by
  induction ls with
  | nil => rfl
  | cons l rest ih =>
    simp [cartProduct, List.length_flatMap, ih, Function.comp]
    induction l with
    | nil => simp
    | cons x xs ihx => simp [ihx, Nat.succ_mul]; omega

lemma cartProduct_singletons {α : Type} (ls : List (List α)) :
    cartProduct (ls.map (fun l => [l])) = [ls] := by
  induction ls with
  | nil => rfl
  | cons l rest ih => simp [cartProduct, ih]

/-- C1: the credential allocator returns `creds[(ordinal - 1) mod len(creds)]`
for every positive ordinal and non-empty credential list, is periodic with
period `len(creds)`, and fails with an error on an empty credential list.
(The embedding is a pure function, so freedom from side effects is inherent.) -/
theorem spec_C1 :
    (∀ (n : Int) (creds : List String), 0 < n → creds ≠ [] →
        ∃ key, get_api_key_for_task n creds = .ok key ∧
          creds[((n - 1) % (creds.length : Int)).toNat]? = some key)
    ∧ (∀ (n : Int) (creds : List String), 0 < n → creds ≠ [] →
        get_api_key_for_task n creds = get_api_key_for_task (n + creds.length) creds)
    ∧ (∀ n : Int, get_api_key_for_task n [] = .error "没有可用的API密钥") := by
  refine ⟨?_, ?_, fun n => rfl⟩
  · intro n creds _ hne
    match creds with
    | k :: ks =>
      refine ⟨_, rfl, ?_⟩
      rw [List.getElem?_eq_getElem, List.get_eq_getElem]
  · intro n creds _ hne
    match creds with
    | k :: ks =>
      have hidx : ((n + ((k :: ks).length : Int)) - 1) % ((k :: ks).length : Int)
          = (n - 1) % ((k :: ks).length : Int) := by
        have h1 : (n + ((k :: ks).length : Int)) - 1
            = (n - 1) + 1 * ((k :: ks).length : Int) := by ring
        rw [h1, Int.add_mul_emod_self]
      simp only [get_api_key_for_task, hidx]

/-- Witness for C1 at ordinal 3 and credentials `["a", "b"]`. -/
theorem spec_C1_witness :
    (∃ key, get_api_key_for_task 3 ["a", "b"] = .ok key ∧
        (["a", "b"])[(((3 : Int) - 1) % ((["a", "b"].length : Nat) : Int)).toNat]? = some key)
    ∧ get_api_key_for_task 3 ["a", "b"]
        = get_api_key_for_task (3 + (["a", "b"].length : Nat)) ["a", "b"] :=
  ⟨spec_C1.1 3 ["a", "b"] (by decide) (by decide),
   spec_C1.2.1 3 ["a", "b"] (by decide) (by decide)⟩

/-- C2: the image-combination planner drops empty pages; on a non-empty list
of non-empty Multiply pages of sizes n1..nk it yields n1*...*nk combinations;
on a non-empty list of non-empty Add pages it yields exactly one combination
holding all assets in page order; with zero non-empty pages it yields `[]`. -/
theorem spec_C2 {α : Type} (pages : List (List α × String)) :
    (calculate_image_combinations pages =
        calculate_image_combinations (pages.filter (fun p => !p.1.isEmpty)))
    ∧ (pages ≠ [] → (∀ p ∈ pages, p.1 ≠ [] ∧ p.2 = "相乘") →
        (calculate_image_combinations pages).length
          = (pages.map (fun p => p.1.length)).prod)
    ∧ (pages ≠ [] → (∀ p ∈ pages, p.1 ≠ [] ∧ p.2 = "相加") →
        calculate_image_combinations pages = [(pages.map Prod.fst).flatten])
    ∧ ((∀ p ∈ pages, p.1 = []) → calculate_image_combinations pages = []) := by
  have hbool : ∀ (l : List α), l ≠ [] → (!l.isEmpty) = true := fun l hl => by
    simp only [Bool.not_eq_true', List.isEmpty_eq_false]; exact hl
  refine ⟨?_, ?_, ?_, ?_⟩
  · have h2 : (pages.filter (fun p => !p.1.isEmpty)).filter (fun p => !p.1.isEmpty)
        = pages.filter (fun p => !p.1.isEmpty) := by
      rw [List.filter_filter]; simp
    simp only [calculate_image_combinations]
    rw [h2]
  · intro hne hall
    have hfil : pages.filter (fun p => !p.1.isEmpty) = pages :=
      List.filter_eq_self.mpr (fun p hp => hbool _ (hall p hp).1)
    have hmap : pages.map (fun p => if p.2 = "相乘" then p.1.map (fun img => [img]) else [p.1])
        = pages.map (fun p => p.1.map (fun img => [img])) :=
      List.map_congr_left (fun p hp => by rw [if_pos (hall p hp).2])
    simp only [calculate_image_combinations, hfil, hmap]
    rw [if_neg (by simpa [List.isEmpty_iff] using hne)]
    rw [List.length_map, cartProduct_length, List.map_map]
    congr 1
    exact List.map_congr_left (fun p _ => by simp [Function.comp_def])
  · intro hne hall
    have hfil : pages.filter (fun p => !p.1.isEmpty) = pages :=
      List.filter_eq_self.mpr (fun p hp => hbool _ (hall p hp).1)
    have hmap : pages.map (fun p => if p.2 = "相乘" then p.1.map (fun img => [img]) else [p.1])
        = (pages.map Prod.fst).map (fun l => [l]) := by
      rw [List.map_map]
      exact List.map_congr_left (fun p hp => by
        rw [if_neg (by simp [(hall p hp).2])]; rfl)
    simp only [calculate_image_combinations, hfil, hmap]
    rw [if_neg (by simpa [List.isEmpty_iff] using hne)]
    rw [cartProduct_singletons]
    rfl
  · intro hall
    have hfil : pages.filter (fun p => !p.1.isEmpty) = [] :=
      List.filter_eq_nil_iff.mpr (fun p hp => by simp [hall p hp])
    simp [calculate_image_combinations, hfil]

/-- Witness for C2: two Multiply pages of sizes 2 and 3 yield 6 combinations;
two Add pages yield a single merged combination; empty pages yield nothing. -/
theorem spec_C2_witness :
    (calculate_image_combinations [([1, 2], "相乘"), ([3, 4, 5], "相乘")]).length
        = ([([1, 2], "相乘"), ([3, 4, 5], "相乘")].map (fun p => p.1.length)).prod
    ∧ calculate_image_combinations [([1, 2], "相加"), ([3], "相加")]
        = [([([1, 2], "相加"), ([3], "相加")].map Prod.fst).flatten]
    ∧ calculate_image_combinations [(([] : List Nat), "相乘")] = [] :=
  ⟨(spec_C2 [([1, 2], "相乘"), ([3, 4, 5], "相乘")]).2.1 (by decide) (by decide),
   (spec_C2 [([1, 2], "相加"), ([3], "相加")]).2.2.1 (by decide) (by decide),
   (spec_C2 [(([] : List Nat), "相乘")]).2.2.2 (by decide)⟩

/-- Whitespace characters recognised by Python's `str.strip()`. -/
def isSpaceChar (c : Char) : Bool :=
  c = ' ' || c = '\t' || c = '\n' || c = '\r' || c = '\x0b' || c = '\x0c'

/-- `str.strip()` on a character list: drop leading and trailing whitespace. -/
def stripChars (cs : List Char) : List Char :=
  ((cs.dropWhile isSpaceChar).reverse.dropWhile isSpaceChar).reverse

/-- `str.split('\n')` on a character list. -/
def splitNl : List Char → List (List Char)
  | [] => [[]]
  | c :: rest =>
    if c = '\n' then [] :: splitNl rest
    else
      match splitNl rest with
      | [] => [[c]]
      | l :: ls => (c :: l) :: ls

/-- The line extraction of `parse_prompt_groups` (webui.py lines 1170-1172):
`[line.strip() for line in text.strip().split('\n') if line.strip()]`,
guarded by `if text:`. -/
def parse_lines (text : String) : List String :=
  if text = "" then []
  else (((splitNl (stripChars text.data)).map stripChars).filter
    (fun cs => !cs.isEmpty)).map List.asString

/-- One raw prompt-group input row `(text, mode, inherit, label)`. -/
structure RawGroup where
  text : String
  mode : String
  inherit : Bool
  label : String
deriving Repr, DecidableEq

/-- One parsed prompt group (the dict built at webui.py lines 1178-1184). -/
structure ParsedGroup where
  index : Nat
  label : String
  prompts : List String
  mode : String
  inherit : Bool
deriving Repr, DecidableEq

/-- The enumerated loop body of `parse_prompt_groups` (webui.py lines
1169-1184): skip a group with no usable lines unless it inherits (then
raise), otherwise keep it. -/
def parse_prompt_groups_aux : Nat → List RawGroup → Except String (List ParsedGroup)
  | _, [] => .ok []
  | idx, g :: rest =>
    let lines := parse_lines g.text
    if lines.isEmpty then
      if g.inherit then .error (g.label ++ " 启用了继承模式，但没有有效的提示词")
      else parse_prompt_groups_aux (idx + 1) rest
    else
      match parse_prompt_groups_aux (idx + 1) rest with
      | .error e => .error e
      | .ok tail =>
        let pg : ParsedGroup :=
          { index := idx, label := g.label, prompts := lines, mode := g.mode, inherit := g.inherit }
        .ok (pg :: tail)

/-- Embedding of `parse_prompt_groups` (webui.py lines 1166-1189). -/
def parse_prompt_groups (raw_groups : List RawGroup) : Except String (List ParsedGroup) :=
  match parse_prompt_groups_aux 1 raw_groups with
  | .error e => .error e
  | .ok parsed =>
    match parsed with
    | [] => .error "请至少输入一个提示词"
    | g :: gs => if g.inherit then .error "第一个提示词组不能启用继承模式" else .ok (g :: gs)

/-- Shift the stored 1-based index of a parsed group (used to relate parses
of a list with and without a skipped leading group). -/
def shiftIdx (d : Nat) (pg : ParsedGroup) : ParsedGroup :=
  { pg with index := pg.index + d }

lemma parse_aux_shift (raw : List RawGroup) (d : Nat) : ∀ i,
    parse_prompt_groups_aux (i + d) raw
      = (parse_prompt_groups_aux i raw).map (List.map (shiftIdx d)) := by
  induction raw with
  | nil => intro i; rfl
  | cons g rest ih =>
    intro i
    simp only [parse_prompt_groups_aux]
    by_cases hl : (parse_lines g.text).isEmpty
    · rw [if_pos hl, if_pos hl]
      by_cases hi : g.inherit
      · simp [hi, Except.map]
      · simp only [hi, if_neg, Bool.false_eq_true, ite_false]
        have := ih (i + 1)
        rw [show i + d + 1 = (i + 1) + d by omega, this]
    · rw [if_neg hl, if_neg hl]
      have := ih (i + 1)
      rw [show i + d + 1 = (i + 1) + d by omega, this]
      cases parse_prompt_groups_aux (i + 1) rest with
      | error e => rfl
      | ok tail => simp [Except.map, shiftIdx]

lemma parse_aux_error_of_empty_inherit (raw : List RawGroup) :
    ∀ i, (∃ g ∈ raw, parse_lines g.text = [] ∧ g.inherit = true) →
      ∃ e, parse_prompt_groups_aux i raw = .error e := by
  induction raw with
  | nil => intro i h; simp at h
  | cons g rest ih =>
    intro i h
    simp only [parse_prompt_groups_aux]
    by_cases hl : (parse_lines g.text).isEmpty
    · by_cases hi : g.inherit
      · exact ⟨_, by rw [if_pos hl, if_pos hi]⟩
      · rw [if_pos hl, if_neg (by simp [hi])]
        apply ih
        rcases h with ⟨g', hg', hg'e, hg'i⟩
        rcases List.mem_cons.mp hg' with rfl | hmem
        · exact absurd hg'i (by simp [hi])
        · exact ⟨g', hmem, hg'e, hg'i⟩
    · rw [if_neg hl]
      have hrest : ∃ g' ∈ rest, parse_lines g'.text = [] ∧ g'.inherit = true := by
        rcases h with ⟨g', hg', hg'e, hg'i⟩
        rcases List.mem_cons.mp hg' with rfl | hmem
        · exact absurd (by simp [hg'e] : (parse_lines g'.text).isEmpty = true) (by simpa using hl)
        · exact ⟨g', hmem, hg'e, hg'i⟩
      rcases ih (i + 1) hrest with ⟨e, he⟩
      exact ⟨e, by rw [he]⟩

lemma parse_aux_ok_of_all_skipped (raw : List RawGroup) :
    ∀ i, (∀ g ∈ raw, parse_lines g.text = [] ∧ g.inherit = false) →
      parse_prompt_groups_aux i raw = .ok [] := by
  induction raw with
  | nil => intro i _; rfl
  | cons g rest ih =>
    intro i h
    have hg := h g (by simp)
    simp only [parse_prompt_groups_aux]
    rw [if_pos (by simp [hg.1]), if_neg (by simp [hg.2])]
    exact ih (i + 1) (fun g' hg' => h g' (List.mem_cons_of_mem _ hg'))

/-- C3: the parser errors whenever the first group inherits (whatever its
other fields), and whenever any group with no usable prompt lines inherits;
a line-less non-inheriting group is skipped (the parse of the remaining
groups is the same up to the stored 1-based indices); and if every group is
skipped the parser errors. -/
theorem spec_C3 :
    (∀ (g : RawGroup) (rest : List RawGroup), g.inherit = true →
        ∃ e, parse_prompt_groups (g :: rest) = .error e)
    ∧ (∀ raw_groups : List RawGroup,
        (∃ g ∈ raw_groups, parse_lines g.text = [] ∧ g.inherit = true) →
        ∃ e, parse_prompt_groups raw_groups = .error e)
    ∧ (∀ (g : RawGroup) (rest : List RawGroup),
        parse_lines g.text = [] → g.inherit = false →
        parse_prompt_groups (g :: rest)
          = (parse_prompt_groups rest).map (List.map (shiftIdx 1)))
    ∧ (∀ raw_groups : List RawGroup,
        (∀ g ∈ raw_groups, parse_lines g.text = [] ∧ g.inherit = false) →
        parse_prompt_groups raw_groups = .error "请至少输入一个提示词") := by
  refine ⟨?_, ?_, ?_, ?_⟩
  · intro g rest hin
    unfold parse_prompt_groups
    simp only [parse_prompt_groups_aux]
    by_cases hl : (parse_lines g.text).isEmpty
    · rw [if_pos hl, if_pos hin]
      exact ⟨_, rfl⟩
    · rw [if_neg hl]
      cases parse_prompt_groups_aux (1 + 1) rest with
      | error e => exact ⟨e, rfl⟩
      | ok tail => exact ⟨"第一个提示词组不能启用继承模式", by simp [hin]⟩
  · intro raw h
    rcases parse_aux_error_of_empty_inherit raw 1 h with ⟨e, he⟩
    exact ⟨e, by unfold parse_prompt_groups; rw [he]⟩
  · intro g rest hl hin
    unfold parse_prompt_groups
    simp only [parse_prompt_groups_aux]
    rw [if_pos (by simp [hl]), if_neg (by simp [hin])]
    rw [parse_aux_shift rest 1 1]
    cases parse_prompt_groups_aux 1 rest with
    | error e => rfl
    | ok parsed =>
      cases parsed with
      | nil => rfl
      | cons p ps =>
        simp only [Except.map, List.map_cons]
        by_cases hp : p.inherit
        · simp [shiftIdx, hp]
        · simp [shiftIdx, hp]
  · intro raw h
    unfold parse_prompt_groups
    rw [parse_aux_ok_of_all_skipped raw 1 h]

/-- Witness for C3 on concrete inputs: an inheriting first group errors; an
inheriting group without lines errors; an empty non-inheriting group is
skipped; all-skipped input errors. -/
theorem spec_C3_witness :
    (∃ e, parse_prompt_groups
        [{ text := "a", mode := "相乘", inherit := true, label := "组1" }] = .error e)
    ∧ (∃ e, parse_prompt_groups
        [{ text := "a", mode := "相乘", inherit := false, label := "组1" },
         { text := " ", mode := "相加", inherit := true, label := "组2" }] = .error e)
    ∧ parse_prompt_groups
        [{ text := "", mode := "相乘", inherit := false, label := "组1" },
         { text := "b", mode := "相加", inherit := false, label := "组2" }]
      = (parse_prompt_groups
          [{ text := "b", mode := "相加", inherit := false, label := "组2" }]).map
          (List.map (shiftIdx 1))
    ∧ parse_prompt_groups [{ text := "", mode := "相乘", inherit := false, label := "组1" }]
      = .error "请至少输入一个提示词" :=
  ⟨spec_C3.1 { text := "a", mode := "相乘", inherit := true, label := "组1" } [] rfl,
   spec_C3.2.1 _ ⟨{ text := " ", mode := "相加", inherit := true, label := "组2" },
     by decide, by decide, rfl⟩,
   spec_C3.2.2.1 { text := "", mode := "相乘", inherit := false, label := "组1" }
     [{ text := "b", mode := "相加", inherit := false, label := "组2" }] (by decide) rfl,
   spec_C3.2.2.2 _ (by decide)⟩

/-- Embedding of `generate_prompt_suffixes_from_groups` (webui.py lines
1192-1214): the Multiply/Add Cartesian combination over prompt lines,
joined with ", ". -/
def generate_prompt_suffixes_from_groups (groups : List ParsedGroup) : List String :=
  let combo_sources := groups.filterMap (fun g =>
    if g.prompts.isEmpty then none
    else if g.mode = "相乘" then some (g.prompts.map (fun p => [p]))
    else some [g.prompts])
  if combo_sources.isEmpty then []
  else (cartProduct combo_sources).map (fun combo => String.intercalate ", " combo.flatten)

/-- Embedding of `describe_stage` (webui.py lines 1217-1224). -/
def describe_stage (groups : List ParsedGroup) : String :=
  String.intercalate " + " (groups.map (fun g =>
    g.label ++ "(" ++ (if g.mode = "相乘" then "×" else "+") ++ ")"
      ++ (if g.inherit then "→继承" else "")))

/-- The grouping loop of `build_pipeline_plan` (webui.py lines 1229-1240):
consecutive non-inheriting groups accumulate into `current`; an inheriting
group flushes `current` and stands alone. -/
def splitStageGroupsAux (current : List ParsedGroup) :
    List ParsedGroup → List (List ParsedGroup)
  | [] => if current.isEmpty then [] else [current]
  | g :: rest =>
    if g.inherit then
      (if current.isEmpty then [] else [current]) ++ [g] :: splitStageGroupsAux [] rest
    else
      splitStageGroupsAux (current ++ [g]) rest

/-- One stage of the prompt pipeline (the dict built at webui.py lines
1250-1258). -/
structure StagePlanEntry where
  stage_index : Nat
  groups : List ParsedGroup
  suffixes : List String
  prompt_count : Nat
  description : String
  inherit_stage : Bool
  replace_prompt : Bool
deriving Repr, DecidableEq

/-- The stage-emission loop of `build_pipeline_plan` (webui.py lines
1242-1258): skip group runs producing no suffixes, otherwise emit a stage
with a 1-based running index. -/
def build_pipeline_plan_aux (idx : Nat) :
    List (List ParsedGroup) → List StagePlanEntry
  | [] => []
  | groups :: rest =>
    let suffixes := generate_prompt_suffixes_from_groups groups
    if suffixes.isEmpty then build_pipeline_plan_aux idx rest
    else
      let inherit_stage := groups.any (fun g => g.inherit)
      let entry : StagePlanEntry :=
        { stage_index := idx + 1, groups := groups, suffixes := suffixes,
          prompt_count := suffixes.length, description := describe_stage groups,
          inherit_stage := inherit_stage,
          replace_prompt := inherit_stage && groups.all (fun g => g.mode = "相乘") }
      entry :: build_pipeline_plan_aux (idx + 1) rest

/-- Embedding of `build_pipeline_plan` (webui.py lines 1227-1261). -/
def build_pipeline_plan (prompt_groups : List ParsedGroup) :
    Except String (List StagePlanEntry) :=
  let plan := build_pipeline_plan_aux 0 (splitStageGroupsAux [] prompt_groups)
  if plan.isEmpty then .error "未能生成有效的提示词组合，请检查输入" else .ok plan

lemma splitStage_flatten (gs : List ParsedGroup) :
    ∀ current, (splitStageGroupsAux current gs).flatten = current ++ gs := by
  induction gs with
  | nil =>
    intro current
    by_cases h : current.isEmpty
    · simp [splitStageGroupsAux, h, List.isEmpty_iff.mp h]
    · simp [splitStageGroupsAux, h]
  | cons g rest ih =>
    intro current
    simp only [splitStageGroupsAux]
    by_cases hin : g.inherit
    · rw [if_pos hin]
      by_cases h : current.isEmpty
      · simp [h, List.isEmpty_iff.mp h, ih]
      · simp [h, ih]
    · rw [if_neg hin, ih]
      simp

lemma splitStage_shape (gs : List ParsedGroup) :
    ∀ current, (∀ g ∈ current, g.inherit = false) →
      ∀ s ∈ splitStageGroupsAux current gs,
        s ≠ [] ∧ ((∃ g, s = [g] ∧ g.inherit = true) ∨ ∀ g ∈ s, g.inherit = false) := by
  induction gs with
  | nil =>
    intro current hcur s hs
    by_cases h : current.isEmpty
    · simp [splitStageGroupsAux, h] at hs
    · simp only [splitStageGroupsAux, h, ite_false] at hs
      rcases List.mem_singleton.mp hs with rfl
      exact ⟨by simpa [List.isEmpty_iff] using h, Or.inr hcur⟩
  | cons g rest ih =>
    intro current hcur s hs
    simp only [splitStageGroupsAux] at hs
    by_cases hin : g.inherit
    · rw [if_pos hin] at hs
      rcases List.mem_append.mp hs with hs1 | hs2
      · by_cases h : current.isEmpty
        · simp [h] at hs1
        · simp only [h, ite_false] at hs1
          rcases List.mem_singleton.mp hs1 with rfl
          exact ⟨by simpa [List.isEmpty_iff] using h, Or.inr hcur⟩
      · rcases List.mem_cons.mp hs2 with rfl | hs3
        · exact ⟨by simp, Or.inl ⟨g, rfl, hin⟩⟩
        · exact ih [] (by simp) s hs3
    · rw [if_neg hin] at hs
      refine ih (current ++ [g]) ?_ s hs
      intro g' hg'
      rcases List.mem_append.mp hg' with h1 | h2
      · exact hcur g' h1
      · rcases List.mem_singleton.mp h2 with rfl
        exact Bool.not_eq_true _ ▸ (by simpa using hin)

lemma splitStage_chain (gs : List ParsedGroup) :
    ∀ current, List.Chain'
      (fun s t => (∃ g ∈ s, g.inherit = true) ∨ (∃ g ∈ t, g.inherit = true))
      (splitStageGroupsAux current gs) := by
  induction gs with
  | nil =>
    intro current
    by_cases h : current.isEmpty
    · simp [splitStageGroupsAux, h]
    · simp [splitStageGroupsAux, h]
  | cons g rest ih =>
    intro current
    simp only [splitStageGroupsAux]
    by_cases hin : g.inherit
    · rw [if_pos hin]
      have htail : List.Chain'
          (fun s t => (∃ g ∈ s, g.inherit = true) ∨ (∃ g ∈ t, g.inherit = true))
          ([g] :: splitStageGroupsAux [] rest) := by
        rw [List.chain'_cons']
        exact ⟨fun y _ => Or.inl ⟨g, by simp, hin⟩, ih []⟩
      by_cases h : current.isEmpty
      · simpa [h] using htail
      · rw [if_neg h]
        rw [List.singleton_append, List.chain'_cons']
        exact ⟨fun y hy => by
          simp only [List.head?_cons, Option.mem_def, Option.some.injEq] at hy
          exact hy ▸ Or.inr ⟨g, by simp, hin⟩, htail⟩
    · rw [if_neg hin]
      exact ih (current ++ [g])

lemma build_aux_groups (sgs : List (List ParsedGroup)) :
    ∀ idx, (build_pipeline_plan_aux idx sgs).map (fun e => e.groups)
      = sgs.filter (fun s => !(generate_prompt_suffixes_from_groups s).isEmpty) := by
  induction sgs with
  | nil => intro idx; rfl
  | cons s rest ih =>
    intro idx
    simp only [build_pipeline_plan_aux]
    by_cases h : (generate_prompt_suffixes_from_groups s).isEmpty
    · rw [if_pos h]
      rw [List.filter_cons_of_neg (by simp [h])]
      exact ih idx
    · rw [if_neg h]
      rw [List.filter_cons_of_pos (by simp [h])]
      simp only [List.map_cons]
      rw [ih (idx + 1)]

lemma build_aux_fields (sgs : List (List ParsedGroup)) :
    ∀ idx, ∀ e ∈ build_pipeline_plan_aux idx sgs,
      e.suffixes = generate_prompt_suffixes_from_groups e.groups
      ∧ e.suffixes ≠ []
      ∧ e.prompt_count = e.suffixes.length
      ∧ (e.replace_prompt = true ↔
          (∃ g ∈ e.groups, g.inherit = true) ∧ ∀ g ∈ e.groups, g.mode = "相乘") := by
  induction sgs with
  | nil => intro idx e he; simp [build_pipeline_plan_aux] at he
  | cons s rest ih =>
    intro idx e he
    simp only [build_pipeline_plan_aux] at he
    by_cases h : (generate_prompt_suffixes_from_groups s).isEmpty
    · rw [if_pos h] at he
      exact ih idx e he
    · rw [if_neg h] at he
      rcases List.mem_cons.mp he with rfl | he2

      · refine ⟨rfl, by simpa [List.isEmpty_iff] using h, rfl, ?_⟩
        simp [Bool.and_eq_true, List.any_eq_true, List.all_eq_true]
      · exact ih (idx + 1) e he2

/-- C4: the stage planner partitions the validated groups in order
(concatenating the stages gives back the input), each stage is a lone
inheriting group or a run of non-inheriting groups, no two adjacent stages
are both non-inheriting runs (runs are maximal), a stage's `replace_prompt`
holds iff it is inheriting and all-Multiply, stages with no suffixes are
dropped, and an empty resulting plan raises a validation error. -/
theorem spec_C4 (gs : List ParsedGroup) :
    ((splitStageGroupsAux [] gs).flatten = gs)
    ∧ (∀ s ∈ splitStageGroupsAux [] gs,
        s ≠ [] ∧ ((∃ g, s = [g] ∧ g.inherit = true) ∨ ∀ g ∈ s, g.inherit = false))
    ∧ List.Chain'
        (fun s t => (∃ g ∈ s, g.inherit = true) ∨ (∃ g ∈ t, g.inherit = true))
        (splitStageGroupsAux [] gs)
    ∧ (∀ plan, build_pipeline_plan gs = .ok plan →
        plan.map (fun e => e.groups)
          = (splitStageGroupsAux [] gs).filter
              (fun s => !(generate_prompt_suffixes_from_groups s).isEmpty)
        ∧ ∀ e ∈ plan,
            e.suffixes = generate_prompt_suffixes_from_groups e.groups
            ∧ e.suffixes ≠ []
            ∧ (e.replace_prompt = true ↔
                (∃ g ∈ e.groups, g.inherit = true) ∧ ∀ g ∈ e.groups, g.mode = "相乘"))
    ∧ (build_pipeline_plan_aux 0 (splitStageGroupsAux [] gs) = [] →
        build_pipeline_plan gs = .error "未能生成有效的提示词组合，请检查输入") := by
  refine ⟨splitStage_flatten gs [], splitStage_shape gs [] (by simp), splitStage_chain gs [],
    ?_, ?_⟩
  · intro plan hplan
    unfold build_pipeline_plan at hplan
    by_cases h : (build_pipeline_plan_aux 0 (splitStageGroupsAux [] gs)).isEmpty
    · simp [h] at hplan
    · rw [if_neg h] at hplan
      cases hplan
      exact ⟨build_aux_groups _ 0, fun e he =>
        ⟨(build_aux_fields _ 0 e he).1, (build_aux_fields _ 0 e he).2.1,
         (build_aux_fields _ 0 e he).2.2.2⟩⟩
  · intro h
    unfold build_pipeline_plan
    rw [if_pos (by simp [h])]

/-- The concrete prompt-group configuration used by the C4 witness: two
non-inheriting groups followed by an inheriting Multiply group. -/
def c4Groups : List ParsedGroup :=
  [{ index := 1, label := "组1", prompts := ["a"], mode := "相乘", inherit := false },
   { index := 2, label := "组2", prompts := ["b"], mode := "相加", inherit := false },
   { index := 3, label := "组3", prompts := ["c"], mode := "相乘", inherit := true }]

/-- Witness for C4 on `c4Groups`: the partition concatenates back to the
input, and the second planned stage (the inheriting Multiply one) has
non-empty suffixes with `replace_prompt` characterised as claimed. -/
theorem spec_C4_witness :
    (splitStageGroupsAux [] c4Groups).flatten = c4Groups
    ∧ ((build_pipeline_plan_aux 0 (splitStageGroupsAux [] c4Groups)).getD 1
          ⟨0, [], [], 0, "", false, false⟩).suffixes
        = generate_prompt_suffixes_from_groups
            ((build_pipeline_plan_aux 0 (splitStageGroupsAux [] c4Groups)).getD 1
              ⟨0, [], [], 0, "", false, false⟩).groups
    ∧ ((build_pipeline_plan_aux 0 (splitStageGroupsAux [] c4Groups)).getD 1
          ⟨0, [], [], 0, "", false, false⟩).suffixes ≠ []
    ∧ (((build_pipeline_plan_aux 0 (splitStageGroupsAux [] c4Groups)).getD 1
          ⟨0, [], [], 0, "", false, false⟩).replace_prompt = true ↔
        (∃ g ∈ ((build_pipeline_plan_aux 0 (splitStageGroupsAux [] c4Groups)).getD 1
          ⟨0, [], [], 0, "", false, false⟩).groups, g.inherit = true)
        ∧ ∀ g ∈ ((build_pipeline_plan_aux 0 (splitStageGroupsAux [] c4Groups)).getD 1
          ⟨0, [], [], 0, "", false, false⟩).groups, g.mode = "相乘") :=
  ⟨(spec_C4 c4Groups).1,
   (((spec_C4 c4Groups).2.2.2.1 (build_pipeline_plan_aux 0 (splitStageGroupsAux [] c4Groups))
      rfl).2 _ (by decide)).1,
   (((spec_C4 c4Groups).2.2.2.1 (build_pipeline_plan_aux 0 (splitStageGroupsAux [] c4Groups))
      rfl).2 _ (by decide)).2.1,
   (((spec_C4 c4Groups).2.2.2.1 (build_pipeline_plan_aux 0 (splitStageGroupsAux [] c4Groups))
      rfl).2 _ (by decide)).2.2⟩

/-- Embedding of `compute_pipeline_statistics` (webui.py lines 1264-1279).
Python mutates each stage dict with `input_count` / `task_count`; the
embedding returns those per-stage pairs alongside the total, the summary
strings and the final carried input count.  Note the source's guard
`current_inputs = stage_tasks if stage_tasks > 0 else current_inputs`. -/
def compute_stats_aux (current : Nat) :
    List StagePlanEntry → Nat × List String × Nat × List (Nat × Nat)
  | [] => (0, [], current, [])
  | stage :: rest =>
    let prompt_count := stage.prompt_count
    let stage_tasks := current * prompt_count
    let next := if stage_tasks > 0 then stage_tasks else current
    let r := compute_stats_aux next rest
    (stage_tasks + r.1,
     ("阶段" ++ toString stage.stage_index ++ ": " ++ toString current ++ " 输入 × "
       ++ toString prompt_count ++ " 提示 = " ++ toString stage_tasks ++ " 任务") :: r.2.1,
     r.2.2.1,
     (current, stage_tasks) :: r.2.2.2)

/-- Entry point matching `compute_pipeline_statistics(initial_combo_count,
stage_plan)`. -/
def compute_pipeline_statistics (initial_combo_count : Nat)
    (stage_plan : List StagePlanEntry) : Nat × List String × Nat × List (Nat × Nat) :=
  compute_stats_aux initial_combo_count stage_plan

/-- Modelled from the spec's wording of `computeStatistics` (§4.2): stage 1
consumes the initial combination count, each later stage consumes the
previous stage's task count, and a stage's task count is its input count
times its prompt count. -/
def statsChainSpec (current : Nat) : List Nat → List (Nat × Nat)
  | [] => []
  | pc :: rest => (current, current * pc) :: statsChainSpec (current * pc) rest

lemma compute_stats_aux_chain (plan : List StagePlanEntry) :
    ∀ current, (∀ e ∈ plan, 0 < e.prompt_count) →
      (compute_stats_aux current plan).2.2.2
          = statsChainSpec current (plan.map (fun e => e.prompt_count))
        ∧ (compute_stats_aux current plan).1
          = ((compute_stats_aux current plan).2.2.2.map Prod.snd).sum := by
  induction plan with
  | nil => intro current _; exact ⟨rfl, rfl⟩
  | cons stage rest ih =>
    intro current hpos
    have hpc : 0 < stage.prompt_count := hpos stage (by simp)
    have hnext : (if current * stage.prompt_count > 0
        then current * stage.prompt_count else current) = current * stage.prompt_count := by
      by_cases hc : 0 < current
      · rw [if_pos (Nat.mul_pos hc hpc)]
      · have hc0 : current = 0 := by omega
        simp [hc0]
    have ihr := ih (current * stage.prompt_count)
      (fun e he => hpos e (List.mem_cons_of_mem _ he))
    constructor
    · simp only [compute_stats_aux, statsChainSpec, hnext, List.map_cons]
      rw [ihr.1]
    · simp only [compute_stats_aux, hnext, List.map_cons, List.sum_cons]
      rw [ihr.2]

/-- C5: under the data-model invariant that each planned stage has at least
one prompt (the planner drops empty-suffix stages), the statistics function
assigns stage 1 the initial combination count as input, each later stage the
previous stage's task count, each stage's task count is input × prompt
count, and the returned total is the sum of all stages' task counts. -/
theorem spec_C5 (initial_combo_count : Nat) (stage_plan : List StagePlanEntry)
    (hpos : ∀ e ∈ stage_plan, 0 < e.prompt_count) :
    (compute_pipeline_statistics initial_combo_count stage_plan).2.2.2
        = statsChainSpec initial_combo_count (stage_plan.map (fun e => e.prompt_count))
    ∧ (compute_pipeline_statistics initial_combo_count stage_plan).1
        = ((compute_pipeline_statistics initial_combo_count stage_plan).2.2.2.map
            Prod.snd).sum :=
  compute_stats_aux_chain stage_plan initial_combo_count hpos

/-- Witness for C5: 2 initial combinations through stages with 3 and 1
prompts give per-stage pairs (2, 6) and (6, 6) and a total of 12. -/
theorem spec_C5_witness :
    (compute_pipeline_statistics 2
        [⟨1, [], ["a", "b", "c"], 3, "", false, false⟩,
         ⟨2, [], ["d"], 1, "", true, true⟩]).2.2.2
      = statsChainSpec 2
          ([⟨1, [], ["a", "b", "c"], 3, "", false, false⟩,
            ⟨2, [], ["d"], 1, "", true, true⟩].map
            (fun e : StagePlanEntry => e.prompt_count))
    ∧ (compute_pipeline_statistics 2
        [⟨1, [], ["a", "b", "c"], 3, "", false, false⟩,
         ⟨2, [], ["d"], 1, "", true, true⟩]).1
      = (((compute_pipeline_statistics 2
          [⟨1, [], ["a", "b", "c"], 3, "", false, false⟩,
           ⟨2, [], ["d"], 1, "", true, true⟩]).2.2.2).map Prod.snd).sum :=
  spec_C5 2
    [⟨1, [], ["a", "b", "c"], 3, "", false, false⟩,
     ⟨2, [], ["d"], 1, "", true, true⟩] (by decide)

/-- The process-wide upload cache (`upload_cache` dict, webui.py line 59),
modelled as a map from file path to CDN URL. -/
def Cache : Type := String → Option String

/-- One call to the Asset Store collaborator (`upload_file_zh`): a returned
URL string, a falsy return, or a raised exception. -/
inductive StoreOutcome
  | url (s : String)
  | failed
  | exn (msg : String)

/-- Result tuple of `upload_single_image` (wall-clock elapsed time
omitted), plus the updated cache and the number of Asset Store calls made
(0 or 1), which the source observes only through mocks/logs. -/
structure UploadRet where
  task_id : Nat
  success : Bool
  message : String
  cdn_url : Option String

/-- Embedding of `upload_single_image` (webui.py lines 164-188): consult
the shared cache first; on a miss call the Asset Store and write the URL
through to the cache only when it is truthy. -/
def upload_single_image (task_id : Nat) (image_path : String) (api_key : String)
    (cache : Cache) (store : String → String → StoreOutcome) :
    UploadRet × Cache × Nat :=
  match cache image_path with
  | some cached_url =>
    (⟨task_id, true, "使用缓存", some cached_url⟩, cache, 0)
  | none =>
    match store image_path api_key with
    | .url cdn_url =>
      if cdn_url ≠ "" then
        (⟨task_id, true, "上传成功", some cdn_url⟩,
         fun p => if p = image_path then some cdn_url else cache p, 1)
      else (⟨task_id, false, "上传失败", none⟩, cache, 1)
    | .failed => (⟨task_id, false, "上传失败", none⟩, cache, 1)
    | .exn msg => (⟨task_id, false, "上传异常: " ++ msg, none⟩, cache, 1)

/-- One call to the Generation Service collaborator
(`GrsaiAPI.banana_generate_image`): the returned `(pil_images, errors)`
pair (result URLs are unused by the orchestration logic), or a raised
exception. -/
inductive CallOutcome
  | result (pil_images : List String) (errors : List String)
  | exn (msg : String)
deriving Repr, DecidableEq

/-- Does this Generation Service outcome make the retry loop keep the task
un-finished (errors reported, no images, or an exception)? -/
def failedOutcome : CallOutcome → Bool
  | .result pil_images errors => !errors.isEmpty || pil_images.isEmpty
  | .exn _ => true

/-- Result tuple of `call_banana_api` / `call_banana_api_multi` (elapsed
time omitted).  `metadata = none` models the empty dict returned on
failure.  `sleeps` (the `time.sleep` durations requested, in seconds) and
`calls` (Generation Service invocations) are ghost instrumentation. -/
structure ApiReturn (μ : Type) where
  task_id : Nat
  success : Bool
  message : String
  output_file : Option String
  metadata : Option μ
  sleeps : List Nat
  calls : Nat
deriving Repr, DecidableEq

/-- The shared retry loop of `call_banana_api` (webui.py lines 199-261) and
`call_banana_api_multi` (webui.py lines 975-1042): `for attempt in
range(1, max_retries + 1)`, sleeping `attempt` seconds between failed
attempts; on success the saved image path and the metadata built by
`mkMeta attempt` are returned.  `fuel` drives the recursion; the caller
passes `max_retries`, which bounds the remaining iterations (Python's
fall-off-the-loop `None` for `max_retries = 0` becomes `none`). -/
def call_attempts {μ : Type} (svc : Nat → CallOutcome) (mkMeta : Nat → μ)
    (task_id : Nat) (output_path : String) (max_retries : Nat) :
    Nat → List Nat → Nat → Nat → Option (ApiReturn μ)
  | _, _, _, 0 => none
  | attempt, sleeps, calls, fuel + 1 =>
    match svc attempt with
    | .exn msg =>
      if attempt < max_retries then
        call_attempts svc mkMeta task_id output_path max_retries
          (attempt + 1) (sleeps ++ [attempt]) (calls + 1) fuel
      else some ⟨task_id, false,
        "API异常: " ++ msg ++ " (重试" ++ toString attempt ++ "次后失败)",
        none, none, sleeps, calls + 1⟩
    | .result pil_images errors =>
      if !errors.isEmpty then
        if attempt < max_retries then
          call_attempts svc mkMeta task_id output_path max_retries
            (attempt + 1) (sleeps ++ [attempt]) (calls + 1) fuel
        else some ⟨task_id, false,
          "API错误: " ++ String.intercalate ", " errors
            ++ " (重试" ++ toString attempt ++ "次后失败)",
          none, none, sleeps, calls + 1⟩
      else if pil_images.isEmpty then
        if attempt < max_retries then
          call_attempts svc mkMeta task_id output_path max_retries
            (attempt + 1) (sleeps ++ [attempt]) (calls + 1) fuel
        else some ⟨task_id, false,
          "未返回图像 (重试" ++ toString attempt ++ "次后失败)",
          none, none, sleeps, calls + 1⟩
      else some ⟨task_id, true,
        (if attempt = 1 then "生成成功" else "生成成功(重试" ++ toString attempt ++ "次)"),
        some output_path, some (mkMeta attempt), sleeps, calls + 1⟩

/-- Extra metadata dict passed by the staged executor to
`call_banana_api_multi` (webui.py lines 896-900). -/
structure ExtraMeta where
  prompt_history : List String
  stage_index : Nat
  replace_prompt : Bool
deriving Repr, DecidableEq

/-- Metadata dict built by `call_banana_api_multi` (webui.py lines
1009-1027); wall-clock fields omitted.  The `extra_metadata` merge always
carries a `stage_index`, which flips `mode` to "flexible-stage". -/
structure GenMetadata where
  source_images : List String
  source_image_count : Nat
  prompt : String
  model : String
  aspect : String
  task_name : String
  cdn_urls : List String
  retry_attempts : Nat
  mode : String
  extra : Option ExtraMeta
deriving Repr, DecidableEq

/-- Metadata construction of `call_banana_api_multi` for a success at the
given attempt number. -/
def mkMultiMeta (source_images : List String) (prompt model aspect task_name : String)
    (cdn_urls : List String) (extra_metadata : Option ExtraMeta) (attempt : Nat) :
    GenMetadata :=
  { source_images := source_images, source_image_count := source_images.length,
    prompt := prompt, model := model, aspect := aspect, task_name := task_name,
    cdn_urls := cdn_urls, retry_attempts := attempt,
    mode := match extra_metadata with | some _ => "flexible-stage" | none => "multi-group",
    extra := extra_metadata }

/-- Embedding of `call_banana_api_multi` (webui.py lines 967-1042). -/
def call_banana_api_multi (task_id : Nat) (cdn_urls : List String) (prompt : String)
    (svc : Nat → CallOutcome) (model : String) (aspect : String) (output_dir : String)
    (task_name : String) (source_images : List String) (max_retries : Nat)
    (extra_metadata : Option ExtraMeta) : Option (ApiReturn GenMetadata) :=
  call_attempts svc
    (mkMultiMeta source_images prompt model aspect task_name cdn_urls extra_metadata)
    task_id (output_dir ++ "/" ++ task_name ++ "_1.png") max_retries
    1 [] 0 max_retries

/-- Metadata dict built by `call_banana_api` (webui.py lines 233-244);
wall-clock fields omitted. -/
structure SingleMetadata where
  source_image : String
  prompt : String
  model : String
  aspect : String
  task_name : String
  cdn_url : String
  retry_attempts : Nat
deriving Repr, DecidableEq

/-- Metadata construction of `call_banana_api` for a success at the given
attempt number. -/
def mkSingleMeta (source_image prompt model aspect task_name cdn_url : String)
    (attempt : Nat) : SingleMetadata :=
  { source_image := source_image, prompt := prompt, model := model,
    aspect := aspect, task_name := task_name, cdn_url := cdn_url,
    retry_attempts := attempt }

/-- Embedding of `call_banana_api` (webui.py lines 191-261): the
single-image variant of the same retry loop. -/
def call_banana_api (task_id : Nat) (cdn_url : String) (prompt : String)
    (svc : Nat → CallOutcome) (model : String) (aspect : String) (output_dir : String)
    (task_name : String) (source_image : String) (max_retries : Nat) :
    Option (ApiReturn SingleMetadata) :=
  call_attempts svc
    (mkSingleMeta source_image prompt model aspect task_name cdn_url)
    task_id (output_dir ++ "/" ++ task_name ++ "_1.png") max_retries
    1 [] 0 max_retries

/-- C7: an upload consults the process-wide cache first and a hit returns
the cached URL with zero Asset Store calls and the cache untouched; a miss
makes exactly one Asset Store call and writes the URL through only on
success; consequently a second upload of the same path after a successful
one never reaches the Asset Store. -/
theorem spec_C7 :
    (∀ (task_id : Nat) (path key : String) (cache : Cache)
        (store : String → String → StoreOutcome) (url : String),
        cache path = some url →
        upload_single_image task_id path key cache store
          = (⟨task_id, true, "使用缓存", some url⟩, cache, 0))
    ∧ (∀ (task_id : Nat) (path key : String) (cache : Cache)
        (store : String → String → StoreOutcome),
        cache path = none →
        (upload_single_image task_id path key cache store).2.2 = 1
        ∧ (∀ url, store path key = .url url → url ≠ "" →
            (upload_single_image task_id path key cache store).2.1 path = some url
            ∧ (upload_single_image task_id path key cache store).1.success = true
            ∧ (upload_single_image task_id path key cache store).1.cdn_url = some url)
        ∧ ((upload_single_image task_id path key cache store).1.success = false →
            (upload_single_image task_id path key cache store).2.1 = cache))
    ∧ (∀ (t1 t2 : Nat) (path key key2 : String) (cache : Cache)
        (store store2 : String → String → StoreOutcome) (url : String),
        cache path = none → store path key = .url url → url ≠ "" →
        upload_single_image t2 path key2
            ((upload_single_image t1 path key cache store).2.1) store2
          = (⟨t2, true, "使用缓存", some url⟩,
             (upload_single_image t1 path key cache store).2.1, 0)) := by
  have hmiss : ∀ (t : Nat) (path key url : String) (cache : Cache)
      (store : String → String → StoreOutcome),
      cache path = none → store path key = .url url → url ≠ "" →
      upload_single_image t path key cache store
        = (⟨t, true, "上传成功", some url⟩,
           fun p => if p = path then some url else cache p, 1) := by
    intro t path key url cache store h hs hu
    simp [upload_single_image, h, hs, hu]
  refine ⟨?_, ?_, ?_⟩
  · intro t path key cache store url h
    simp [upload_single_image, h]
  · intro t path key cache store h
    refine ⟨?_, ?_, ?_⟩
    · cases hs : store path key with
      | url u =>
        by_cases hu : u = "" <;> simp [upload_single_image, h, hs, hu]
      | failed => simp [upload_single_image, h, hs]
      | exn m => simp [upload_single_image, h, hs]
    · intro url hs hu
      rw [hmiss t path key url cache store h hs hu]
      simp
    · intro hfail
      cases hs : store path key with
      | url u =>
        by_cases hu : u = ""
        · simp [upload_single_image, h, hs, hu]
        · rw [hmiss t path key u cache store h hs hu] at hfail
          simp at hfail
      | failed => simp [upload_single_image, h, hs]
      | exn m => simp [upload_single_image, h, hs]
  · intro t1 t2 path key key2 cache store store2 url h hs hu
    rw [hmiss t1 path key url cache store h hs hu]
    simp [upload_single_image]

/-- Asset Store oracle for the C7 witness: always returns URL "u". -/
def c7Store : String → String → StoreOutcome := fun _ _ => .url "u"

/-- Initially empty upload cache for the C7 witness. -/
def c7Cache : Cache := fun _ => none

/-- Witness for C7: the first upload of "img.png" makes one Asset Store
call; repeating it against the resulting cache makes zero calls and
returns the cached URL. -/
theorem spec_C7_witness :
    (upload_single_image 1 "img.png" "k" c7Cache c7Store).2.2 = 1
    ∧ upload_single_image 2 "img.png" "k2"
          ((upload_single_image 1 "img.png" "k" c7Cache c7Store).2.1) c7Store
        = (⟨2, true, "使用缓存", some "u"⟩,
           (upload_single_image 1 "img.png" "k" c7Cache c7Store).2.1, 0) :=
  ⟨(spec_C7.2.1 1 "img.png" "k" c7Cache c7Store rfl).1,
   spec_C7.2.2 1 2 "img.png" "k" "k2" c7Cache c7Store c7Store "u" rfl rfl (by decide)⟩

/-- One combination state carried between stages (webui.py lines 684-691
and 909-914): current images, the carried prompt, and its history. -/
structure CombState where
  images : List String
  prompt_text : String
  prompt_history : List String
deriving Repr, DecidableEq

/-- The per-state prompt computation of the staged executor (webui.py
lines 736-763): for each suffix compute the final prompt (replacement or
", "-joined append), skipping entries whose final prompt strips to empty,
and the matching prompt-history entry. -/
def compute_stage_prompts (replace_prompt : Bool) (base_prompt : String)
    (base_history : List String) : List String → List String × List (List String)
  | [] => ([], [])
  | suffix :: rest =>
    let r := compute_stage_prompts replace_prompt base_prompt base_history rest
    match replace_prompt with
    | true =>
      if suffix = "" ∨ (stripChars suffix.data).asString = "" then r
      else (suffix :: r.1,
        (if suffix ≠ "" then base_history ++ [suffix] else base_history) :: r.2)
    | false =>
      let final_prompt :=
        if base_prompt ≠ "" ∧ suffix ≠ "" then base_prompt ++ ", " ++ suffix
        else if base_prompt = "" then suffix
        else base_prompt
      if (stripChars final_prompt.data).asString = "" then r
      else (final_prompt :: r.1,
        (if suffix ≠ "" then base_history ++ [suffix] else base_history) :: r.2)

/-- Modelled from the spec's wording of step 1 of `runStage` (§4.4): the
per-(state, suffix) final prompt — the suffix alone under `replace_prompt`,
otherwise the carried prompt and suffix joined with ", " when both are
non-empty or whichever is non-empty — with entries whose final prompt is
empty skipped (`none`). -/
def stage_prompt_rule (replace_prompt : Bool) (base_prompt : String)
    (suffix : String) : Option String :=
  match replace_prompt with
  | true =>
    if (stripChars suffix.data).asString = "" then none else some suffix
  | false =>
    let final_prompt :=
      if base_prompt ≠ "" ∧ suffix ≠ "" then base_prompt ++ ", " ++ suffix
      else if base_prompt = "" then suffix
      else base_prompt
    if (stripChars final_prompt.data).asString = "" then none else some final_prompt

/-- One generation task of a stage (the dict built at webui.py lines
845-854); timing fields omitted. -/
structure TaskInfo where
  sequence : Nat
  cdn_urls : List String
  source_images : List String
  prompt : String
  task_name : String
  history : List String
deriving Repr, DecidableEq

/-- Resolve a state's images against the stage's upload results (webui.py
lines 827-839): all images must be present, else the state is dropped. -/
def resolve_urls (uploads : List (String × String)) :
    List String → Option (List String)
  | [] => some []
  | img :: rest =>
    match uploads.lookup img with
    | none => none
    | some url =>
      match resolve_urls uploads rest with
      | none => none
      | some urls => some (url :: urls)

/-- Tasks for one combination (the inner loop at webui.py lines 841-854):
one task per surviving prompt, continuing the running sequence number;
the history entry is looked up by prompt index with a last-element
fallback mirroring `histories_for_combo[-1]`. -/
def tasks_for_combo (group_tag : String) (stage_idx combo_idx : Nat)
    (urls imgs : List String) (histories : List (List String)) :
    Nat → Nat → List String → List TaskInfo
  | _, _, [] => []
  | seq, prompt_idx, prompt :: rest =>
    let history :=
      if prompt_idx - 1 < histories.length then histories.getD (prompt_idx - 1) []
      else histories.getLastD []
    { sequence := seq + 1, cdn_urls := urls, source_images := imgs, prompt := prompt,
      task_name := "Task_" ++ group_tag ++ "_S" ++ toString stage_idx ++ "_C"
        ++ toString combo_idx ++ "_P" ++ toString prompt_idx,
      history := history }
      :: tasks_for_combo group_tag stage_idx combo_idx urls imgs histories
          (seq + 1) (prompt_idx + 1) rest

/-- The task-building loop of the staged executor (webui.py lines
820-854): iterate states (with their per-state prompts and histories) in
order, skipping states with no prompts or unresolved uploads. -/
def build_api_tasks_aux (group_tag : String) (stage_idx : Nat)
    (uploads : List (String × String)) :
    Nat → Nat → List (CombState × List String × List (List String)) → List TaskInfo
  | _, _, [] => []
  | seq, combo_idx, (state, prompts, histories) :: rest =>
    if prompts.isEmpty then
      build_api_tasks_aux group_tag stage_idx uploads seq (combo_idx + 1) rest
    else
      match resolve_urls uploads state.images with
      | none => build_api_tasks_aux group_tag stage_idx uploads seq (combo_idx + 1) rest
      | some urls =>
        if urls.isEmpty then
          build_api_tasks_aux group_tag stage_idx uploads seq (combo_idx + 1) rest
        else
          tasks_for_combo group_tag stage_idx combo_idx urls state.images histories
              seq 1 prompts
            ++ build_api_tasks_aux group_tag stage_idx uploads (seq + prompts.length)
                (combo_idx + 1) rest

/-- Entry point of the task-building loop: sequence starts at 0 and combo
indices at 1 (`enumerate(..., 1)`). -/
def build_api_tasks (group_tag : String) (stage_idx : Nat)
    (uploads : List (String × String))
    (triples : List (CombState × List String × List (List String))) : List TaskInfo :=
  build_api_tasks_aux group_tag stage_idx uploads 0 1 triples

/-- The success filter of the result-collection loop (webui.py lines
909-914): `if success and output_file:` keeps the task's resulting state,
keyed by its sequence number.  Python string truthiness makes an empty
output path falsy. -/
def successState (t : TaskInfo) (r : ApiReturn GenMetadata) :
    Option (Nat × CombState) :=
  match r.output_file with
  | some f =>
    if r.success && !(f == "") then
      some (t.sequence,
        { images := [f], prompt_text := t.prompt, prompt_history := t.history })
    else none
  | none => none

/-- The `stage_success_outputs` dict (webui.py lines 876, 909-914) built
over the completed tasks in completion order; sequence numbers are unique,
so the dict is an association list. -/
def stage_success_outputs (completed : List (TaskInfo × ApiReturn GenMetadata)) :
    List (Nat × CombState) :=
  completed.filterMap (fun p => successState p.1 p.2)

/-- Insertion into a list sorted by sequence number. -/
def insertBySeq (x : Nat × CombState) : List (Nat × CombState) → List (Nat × CombState)
  | [] => [x]
  | y :: ys => if x.1 ≤ y.1 then x :: y :: ys else y :: insertBySeq x ys

/-- Sorting by sequence number; models Python's
`sorted(stage_success_outputs.keys())` traversal. -/
def sortBySeq (l : List (Nat × CombState)) : List (Nat × CombState) :=
  l.foldr insertBySeq []

/-- The next-stage input list (webui.py line 942): the successful states in
ascending sequence order. -/
def next_states (completed : List (TaskInfo × ApiReturn GenMetadata)) :
    List CombState :=
  (sortBySeq (stage_success_outputs completed)).map Prod.snd

lemma call_attempts_all_fail {μ : Type} (svc : Nat → CallOutcome) (mkMeta : Nat → μ)
    (task_id : Nat) (output_path : String) (max_retries : Nat) :
    ∀ (fuel attempt : Nat) (sleeps : List Nat) (calls : Nat),
      1 ≤ attempt → attempt ≤ max_retries → attempt + fuel = max_retries + 1 →
      (∀ a, attempt ≤ a → a ≤ max_retries → failedOutcome (svc a) = true) →
      ∃ msg, call_attempts svc mkMeta task_id output_path max_retries
          attempt sleeps calls fuel
        = some ⟨task_id, false, msg, none, none,
            sleeps ++ List.range' attempt (max_retries - attempt), calls + fuel⟩ := by
  intro fuel
  induction fuel with
  | zero => intro attempt sleeps calls h1 h2 h3 _; omega
  | succ fuel ih =>
    intro attempt sleeps calls h1 h2 h3 hfail
    have hcur : failedOutcome (svc attempt) = true := hfail attempt (le_refl _) h2
    have hstep : attempt < max_retries → ∃ msg,
        call_attempts svc mkMeta task_id output_path max_retries
            (attempt + 1) (sleeps ++ [attempt]) (calls + 1) fuel
          = some ⟨task_id, false, msg, none, none,
              sleeps ++ List.range' attempt (max_retries - attempt),
              calls + (fuel + 1)⟩ := by
      intro hlt
      have hr := ih (attempt + 1) (sleeps ++ [attempt]) (calls + 1)
        (by omega) (by omega) (by omega)
        (fun a ha hb => hfail a (by omega) hb)
      rcases hr with ⟨msg, hmsg⟩
      refine ⟨msg, ?_⟩
      rw [hmsg]
      have hrange : List.range' attempt (max_retries - attempt)
          = attempt :: List.range' (attempt + 1) (max_retries - (attempt + 1)) := by
        have h4 : max_retries - attempt = (max_retries - (attempt + 1)) + 1 := by omega
        rw [h4, List.range'_succ]
      rw [hrange]
      simp only [List.append_assoc, List.singleton_append]
      have h5 : calls + 1 + fuel = calls + (fuel + 1) := by omega
      rw [h5]
    have hlast : attempt = max_retries →
        List.range' attempt (max_retries - attempt) = [] ∧ fuel = 0 := by
      intro he; constructor
      · rw [he]; simp
      · omega
    cases hsv : svc attempt with
    | exn msg =>
      simp only [call_attempts, hsv]
      by_cases hlt : attempt < max_retries
      · rw [if_pos hlt]; exact hstep hlt
      · rw [if_neg hlt]
        have he : attempt = max_retries := by omega
        rcases hlast he with ⟨hr0, hf0⟩
        exact ⟨_, by rw [hr0, List.append_nil, hf0]⟩
    | result pil_images errors =>
      simp only [call_attempts, hsv]
      by_cases herr : errors.isEmpty
      · have himg : pil_images.isEmpty := by
          simp [failedOutcome, hsv, herr] at hcur
          simpa using hcur
        rw [if_neg (by simp [herr]), if_pos himg]
        by_cases hlt : attempt < max_retries
        · rw [if_pos hlt]; exact hstep hlt
        · rw [if_neg hlt]
          have he : attempt = max_retries := by omega
          rcases hlast he with ⟨hr0, hf0⟩
          exact ⟨_, by rw [hr0, List.append_nil, hf0]⟩
      · rw [if_pos (by simp [herr])]
        by_cases hlt : attempt < max_retries
        · rw [if_pos hlt]; exact hstep hlt
        · rw [if_neg hlt]
          have he : attempt = max_retries := by omega
          rcases hlast he with ⟨hr0, hf0⟩
          exact ⟨_, by rw [hr0, List.append_nil, hf0]⟩

lemma call_attempts_succeed_last {μ : Type} (svc : Nat → CallOutcome) (mkMeta : Nat → μ)
    (task_id : Nat) (output_path : String) (max_retries : Nat) :
    ∀ (fuel attempt : Nat) (sleeps : List Nat) (calls : Nat),
      1 ≤ attempt → attempt ≤ max_retries → attempt + fuel = max_retries + 1 →
      (∀ a, attempt ≤ a → a < max_retries → failedOutcome (svc a) = true) →
      failedOutcome (svc max_retries) = false →
      ∃ msg, call_attempts svc mkMeta task_id output_path max_retries
          attempt sleeps calls fuel
        = some ⟨task_id, true, msg, some output_path, some (mkMeta max_retries),
            sleeps ++ List.range' attempt (max_retries - attempt), calls + fuel⟩ := by
  intro fuel
  induction fuel with
  | zero => intro attempt sleeps calls h1 h2 h3 _ _; omega
  | succ fuel ih =>
    intro attempt sleeps calls h1 h2 h3 hfail hsucc
    by_cases hlt : attempt < max_retries
    · have hcur : failedOutcome (svc attempt) = true := hfail attempt (le_refl _) hlt
      have hrec : ∃ msg,
          call_attempts svc mkMeta task_id output_path max_retries
              (attempt + 1) (sleeps ++ [attempt]) (calls + 1) fuel
            = some ⟨task_id, true, msg, some output_path, some (mkMeta max_retries),
                sleeps ++ List.range' attempt (max_retries - attempt),
                calls + (fuel + 1)⟩ := by
        have hr := ih (attempt + 1) (sleeps ++ [attempt]) (calls + 1)
          (by omega) (by omega) (by omega)
          (fun a ha hb => hfail a (by omega) hb) hsucc
        rcases hr with ⟨msg, hmsg⟩
        refine ⟨msg, ?_⟩
        rw [hmsg]
        have hrange : List.range' attempt (max_retries - attempt)
            = attempt :: List.range' (attempt + 1) (max_retries - (attempt + 1)) := by
          have h4 : max_retries - attempt = (max_retries - (attempt + 1)) + 1 := by omega
          rw [h4, List.range'_succ]
        rw [hrange]
        simp only [List.append_assoc, List.singleton_append]
        have h5 : calls + 1 + fuel = calls + (fuel + 1) := by omega
        rw [h5]
      cases hsv : svc attempt with
      | exn msg =>
        simp only [call_attempts, hsv]
        rw [if_pos hlt]
        exact hrec
      | result pil_images errors =>
        simp only [call_attempts, hsv]
        by_cases herr : errors.isEmpty
        · have himg : pil_images.isEmpty := by
            simp [failedOutcome, hsv, herr] at hcur
            simpa using hcur
          rw [if_neg (by simp [herr]), if_pos himg, if_pos hlt]
          exact hrec
        · rw [if_pos (by simp [herr]), if_pos hlt]
          exact hrec
    · have he : attempt = max_retries := by omega
      subst he
      cases hsv : svc attempt with
      | exn msg => rw [hsv] at hsucc; simp [failedOutcome] at hsucc
      | result pil_images errors =>
        rw [hsv] at hsucc
        simp only [failedOutcome, Bool.or_eq_false_iff, Bool.not_eq_false'] at hsucc
        simp only [call_attempts, hsv]
        rw [if_neg (by simp [hsucc.1]), if_neg (by simp [hsucc.2])]
        have hr0 : List.range' attempt (attempt - attempt) = [] := by simp
        have hf0 : fuel = 0 := by omega
        exact ⟨_, by rw [hr0, List.append_nil, hf0]⟩

lemma call_attempts_calls_le {μ : Type} (svc : Nat → CallOutcome) (mkMeta : Nat → μ)
    (task_id : Nat) (output_path : String) (max_retries : Nat) :
    ∀ (fuel attempt : Nat) (sleeps : List Nat) (calls : Nat) (r : ApiReturn μ),
      call_attempts svc mkMeta task_id output_path max_retries
          attempt sleeps calls fuel = some r →
      r.calls ≤ calls + fuel := by
  intro fuel
  induction fuel with
  | zero => intro attempt sleeps calls r h; simp [call_attempts] at h
  | succ fuel ih =>
    intro attempt sleeps calls r h
    cases hsv : svc attempt with
    | exn msg =>
      simp only [call_attempts, hsv] at h
      by_cases hlt : attempt < max_retries
      · rw [if_pos hlt] at h
        have := ih (attempt + 1) (sleeps ++ [attempt]) (calls + 1) r h
        omega
      · rw [if_neg hlt] at h
        cases h
        simp
    | result pil_images errors =>
      simp only [call_attempts, hsv] at h
      by_cases herr : errors.isEmpty
      · rw [if_neg (by simp [herr])] at h
        by_cases himg : pil_images.isEmpty
        · rw [if_pos himg] at h
          by_cases hlt : attempt < max_retries
          · rw [if_pos hlt] at h
            have := ih (attempt + 1) (sleeps ++ [attempt]) (calls + 1) r h
            omega
          · rw [if_neg hlt] at h
            cases h
            simp
        · rw [if_neg himg] at h
          cases h
          simp
      · rw [if_pos (by simp [herr])] at h
        by_cases hlt : attempt < max_retries
        · rw [if_pos hlt] at h
          have := ih (attempt + 1) (sleeps ++ [attempt]) (calls + 1) r h
          omega
        · rw [if_neg hlt] at h
          cases h
          simp

/-- C6: a generation task whose Generation Service calls keep failing is
retried with backoff sleeps of 1s, 2s, ... between the at most `maxRetries`
attempts; failing all `maxRetries` attempts yields a permanent failure
(no output artifact, empty metadata); failing `maxRetries - 1` times and
then succeeding yields a success whose metadata records
`retry_attempts = maxRetries`; and a failed task contributes no state to
the next stage's inputs. -/
theorem spec_C6 :
    (∀ (svc : Nat → CallOutcome) (task_id : Nat) (cdn_urls : List String)
        (prompt model aspect output_dir task_name : String)
        (source_images : List String) (max_retries : Nat) (extra : Option ExtraMeta),
        1 ≤ max_retries →
        (∀ a, 1 ≤ a → a ≤ max_retries → failedOutcome (svc a) = true) →
        ∃ r, call_banana_api_multi task_id cdn_urls prompt svc model aspect
            output_dir task_name source_images max_retries extra = some r
          ∧ r.success = false ∧ r.output_file = none ∧ r.metadata = none
          ∧ r.sleeps = List.range' 1 (max_retries - 1) ∧ r.calls = max_retries)
    ∧ (∀ (svc : Nat → CallOutcome) (task_id : Nat) (cdn_urls : List String)
        (prompt model aspect output_dir task_name : String)
        (source_images : List String) (max_retries : Nat) (extra : Option ExtraMeta),
        1 ≤ max_retries →
        (∀ a, 1 ≤ a → a < max_retries → failedOutcome (svc a) = true) →
        failedOutcome (svc max_retries) = false →
        ∃ r, call_banana_api_multi task_id cdn_urls prompt svc model aspect
            output_dir task_name source_images max_retries extra = some r
          ∧ r.success = true
          ∧ r.output_file = some (output_dir ++ "/" ++ task_name ++ "_1.png")
          ∧ (∃ m, r.metadata = some m ∧ m.retry_attempts = max_retries)
          ∧ r.sleeps = List.range' 1 (max_retries - 1) ∧ r.calls = max_retries)
    ∧ (∀ (svc : Nat → CallOutcome) (task_id : Nat) (cdn_urls : List String)
        (prompt model aspect output_dir task_name : String)
        (source_images : List String) (max_retries : Nat) (extra : Option ExtraMeta)
        (r : ApiReturn GenMetadata),
        call_banana_api_multi task_id cdn_urls prompt svc model aspect
            output_dir task_name source_images max_retries extra = some r →
        r.calls ≤ max_retries)
    ∧ ((∀ (t : TaskInfo) (r : ApiReturn GenMetadata), r.success = false →
          successState t r = none)
        ∧ ∀ (completed : List (TaskInfo × ApiReturn GenMetadata)),
          stage_success_outputs completed
            = stage_success_outputs (completed.filter (fun p => p.2.success))) := by
  refine ⟨?_, ?_, ?_, ?_⟩
  · intro svc task_id cdn_urls prompt model aspect output_dir task_name
      source_images max_retries extra h1 hfail
    rcases call_attempts_all_fail svc
        (mkMultiMeta source_images prompt model aspect task_name cdn_urls extra)
        task_id (output_dir ++ "/" ++ task_name ++ "_1.png") max_retries
        max_retries 1 [] 0 (le_refl _) h1 (by omega) hfail with ⟨msg, hmsg⟩
    refine ⟨_, hmsg, rfl, rfl, rfl, by simp, by simp⟩
  · intro svc task_id cdn_urls prompt model aspect output_dir task_name
      source_images max_retries extra h1 hfail hsucc
    rcases call_attempts_succeed_last svc
        (mkMultiMeta source_images prompt model aspect task_name cdn_urls extra)
        task_id (output_dir ++ "/" ++ task_name ++ "_1.png") max_retries
        max_retries 1 [] 0 (le_refl _) h1 (by omega) hfail hsucc with ⟨msg, hmsg⟩
    refine ⟨_, hmsg, rfl, rfl, ⟨_, rfl, rfl⟩, by simp, by simp⟩
  · intro svc task_id cdn_urls prompt model aspect output_dir task_name
      source_images max_retries extra r h
    have := call_attempts_calls_le svc
      (mkMultiMeta source_images prompt model aspect task_name cdn_urls extra)
      task_id (output_dir ++ "/" ++ task_name ++ "_1.png") max_retries
      max_retries 1 [] 0 r h
    omega
  · have hnone : ∀ (t : TaskInfo) (r : ApiReturn GenMetadata), r.success = false →
        successState t r = none := by
      intro t r hfalse
      unfold successState
      cases r.output_file with
      | none => rfl
      | some f => simp [hfalse]
    refine ⟨hnone, ?_⟩
    intro completed
    induction completed with
    | nil => rfl
    | cons p rest ih =>
      unfold stage_success_outputs at ih ⊢
      by_cases hs : p.2.success
      · rw [List.filter_cons_of_pos (by simp [hs])]
        simp only [List.filterMap_cons]
        rw [ih]
      · rw [List.filter_cons_of_neg (by simp [hs])]
        simp only [List.filterMap_cons,
          hnone p.1 p.2 (Bool.not_eq_true _ ▸ (by simpa using hs))]
        exact ih

/-- Generation Service oracle for the C6 witness: every attempt raises. -/
def c6FailSvc : Nat → CallOutcome := fun _ => .exn "boom"

/-- Generation Service oracle for the C6 witness: attempts 1 and 2 raise,
attempt 3 succeeds with one image. -/
def c6LateSvc : Nat → CallOutcome := fun a =>
  if a < 3 then .exn "boom" else .result ["img"] []

/-- Witness for C6 with `max_retries = 3`: an always-failing service yields
a permanent failure with sleeps 1s, 2s and 3 calls; a service succeeding on
the third attempt yields a success with `retry_attempts = 3`; a failed task
result contributes no next-stage state. -/
theorem spec_C6_witness :
    (∃ r, call_banana_api_multi 1 ["u"] "p" c6FailSvc "m" "ar" "out" "T" ["s"] 3 none
        = some r
      ∧ r.success = false ∧ r.output_file = none ∧ r.metadata = none
      ∧ r.sleeps = List.range' 1 (3 - 1) ∧ r.calls = 3)
    ∧ (∃ r, call_banana_api_multi 1 ["u"] "p" c6LateSvc "m" "ar" "out" "T" ["s"] 3 none
        = some r
      ∧ r.success = true ∧ r.output_file = some ("out" ++ "/" ++ "T" ++ "_1.png")
      ∧ (∃ m, r.metadata = some m ∧ m.retry_attempts = 3)
      ∧ r.sleeps = List.range' 1 (3 - 1) ∧ r.calls = 3)
    ∧ successState ⟨7, ["u"], ["s"], "p", "T", []⟩
        ⟨7, false, "API错误", none, none, [1, 2], 3⟩ = none :=
  ⟨spec_C6.1 c6FailSvc 1 ["u"] "p" "m" "ar" "out" "T" ["s"] 3 none (by decide)
      (fun a _ _ => rfl),
   spec_C6.2.1 c6LateSvc 1 ["u"] "p" "m" "ar" "out" "T" ["s"] 3 none (by decide)
      (by intro a h1 h2; interval_cases a <;> rfl) (by decide),
   spec_C6.2.2.2.1 ⟨7, ["u"], ["s"], "p", "T", []⟩
      ⟨7, false, "API错误", none, none, [1, 2], 3⟩ rfl⟩

lemma stripChars_nil : stripChars [] = [] := rfl

lemma compute_stage_prompts_filterMap (replace_prompt : Bool)
    (base_prompt : String) (base_history : List String) :
    ∀ suffixes, (compute_stage_prompts replace_prompt base_prompt base_history suffixes).1
      = suffixes.filterMap (stage_prompt_rule replace_prompt base_prompt) := by
  intro suffixes
  induction suffixes with
  | nil => cases replace_prompt <;> rfl
  | cons suffix rest ih =>
    cases replace_prompt with
    | true =>
      simp only [compute_stage_prompts, List.filterMap_cons, stage_prompt_rule]
      by_cases hstrip : (stripChars suffix.data).asString = ""
      · rw [if_pos (Or.inr hstrip), if_pos hstrip]
        exact ih
      · have hsuf : ¬suffix = "" := fun he => hstrip (by rw [he]; rfl)
        rw [if_neg (by tauto), if_neg hstrip]
        simp only [List.cons.injEq, true_and]
        exact ih
    | false =>
      simp only [compute_stage_prompts, List.filterMap_cons, stage_prompt_rule]
      by_cases hstrip : (stripChars (if base_prompt ≠ "" ∧ suffix ≠ ""
          then base_prompt ++ ", " ++ suffix
          else if base_prompt = "" then suffix else base_prompt).data).asString = ""
      · rw [if_pos hstrip, if_pos hstrip]
        exact ih
      · rw [if_neg hstrip, if_neg hstrip]
        simp only [List.cons.injEq, true_and]
        exact ih

lemma filterMap_rule_true (base_prompt : String) :
    ∀ l : List String, l.filterMap (stage_prompt_rule true base_prompt)
      = l.filter (fun s => !((stripChars s.data).asString == "")) := by
  intro l
  induction l with
  | nil => rfl
  | cons s rest ih =>
    simp only [List.filterMap_cons, stage_prompt_rule]
    by_cases hstrip : (stripChars s.data).asString = ""
    · rw [if_pos hstrip, List.filter_cons_of_neg (by simp [hstrip])]
      exact ih
    · rw [if_neg hstrip, List.filter_cons_of_pos (by simp [hstrip])]
      rw [ih]

lemma compute_stage_prompts_lengths (replace_prompt : Bool)
    (base_prompt : String) (base_history : List String) :
    ∀ suffixes,
      (compute_stage_prompts replace_prompt base_prompt base_history suffixes).1.length
        = (compute_stage_prompts replace_prompt base_prompt base_history suffixes).2.length := by
  intro suffixes
  induction suffixes with
  | nil => cases replace_prompt <;> rfl
  | cons suffix rest ih =>
    cases replace_prompt with
    | true =>
      simp only [compute_stage_prompts]
      by_cases hc : suffix = "" ∨ (stripChars suffix.data).asString = ""
      · rw [if_pos hc]; exact ih
      · rw [if_neg hc]; simpa using ih
    | false =>
      simp only [compute_stage_prompts]
      by_cases hc : (stripChars (if base_prompt ≠ "" ∧ suffix ≠ ""
          then base_prompt ++ ", " ++ suffix
          else if base_prompt = "" then suffix else base_prompt).data).asString = ""
      · rw [if_pos hc]; exact ih
      · rw [if_neg hc]; simpa using ih

lemma compute_stage_prompts_nonempty (replace_prompt : Bool)
    (base_prompt : String) (base_history : List String) :
    ∀ suffixes,
      ∀ p ∈ (compute_stage_prompts replace_prompt base_prompt base_history suffixes).1,
        (stripChars p.data).asString ≠ "" := by
  intro suffixes
  induction suffixes with
  | nil => cases replace_prompt <;> simp [compute_stage_prompts]
  | cons suffix rest ih =>
    intro p hp
    cases replace_prompt with
    | true =>
      simp only [compute_stage_prompts] at hp
      by_cases hc : suffix = "" ∨ (stripChars suffix.data).asString = ""
      · rw [if_pos hc] at hp; exact ih p hp
      · rw [if_neg hc] at hp
        rcases List.mem_cons.mp hp with rfl | hp2
        · tauto
        · exact ih p hp2
    | false =>
      simp only [compute_stage_prompts] at hp
      by_cases hc : (stripChars (if base_prompt ≠ "" ∧ suffix ≠ ""
          then base_prompt ++ ", " ++ suffix
          else if base_prompt = "" then suffix else base_prompt).data).asString = ""
      · rw [if_pos hc] at hp; exact ih p hp
      · rw [if_neg hc] at hp
        rcases List.mem_cons.mp hp with rfl | hp2
        · exact hc
        · exact ih p hp2

/-- C9: the staged executor's per-state prompts follow the spec rule — under
`replace_prompt` the final prompt is the suffix literal itself (suffixes
stripping to empty are skipped), otherwise the carried prompt and suffix
joined with ", " when both are non-empty or whichever is non-empty; any
pair whose final prompt strips to empty yields no prompt (hence no task);
and the parallel history list stays aligned with the prompt list. -/
theorem spec_C9 (replace_prompt : Bool) (base_prompt : String)
    (base_history : List String) (suffixes : List String) :
    ((compute_stage_prompts replace_prompt base_prompt base_history suffixes).1
        = suffixes.filterMap (stage_prompt_rule replace_prompt base_prompt))
    ∧ (replace_prompt = true →
        (compute_stage_prompts replace_prompt base_prompt base_history suffixes).1
          = suffixes.filter (fun s => !((stripChars s.data).asString == "")))
    ∧ ((compute_stage_prompts replace_prompt base_prompt base_history suffixes).1.length
        = (compute_stage_prompts replace_prompt base_prompt base_history suffixes).2.length)
    ∧ (∀ p ∈ (compute_stage_prompts replace_prompt base_prompt base_history suffixes).1,
        (stripChars p.data).asString ≠ "") :=
  ⟨compute_stage_prompts_filterMap replace_prompt base_prompt base_history suffixes,
   fun hr => by
     subst hr
     rw [compute_stage_prompts_filterMap, filterMap_rule_true],
   compute_stage_prompts_lengths replace_prompt base_prompt base_history suffixes,
   compute_stage_prompts_nonempty replace_prompt base_prompt base_history suffixes⟩

/-- Witness for C9: a replace-prompt stage keeps the suffix literal and
drops blank suffixes; an append stage joins with ", ". -/
theorem spec_C9_witness :
    (compute_stage_prompts true "old" ["old"] ["new", " "]).1
        = ["new", " "].filter (fun s => !((stripChars s.data).asString == ""))
    ∧ (compute_stage_prompts false "old" ["old"] ["new"]).1
        = ["new"].filterMap (stage_prompt_rule false "old") :=
  ⟨(spec_C9 true "old" ["old"] ["new", " "]).2.1 rfl,
   (spec_C9 false "old" ["old"] ["new"]).1⟩

lemma range'_pairwise_lt (s n : Nat) : (List.range' s n).Pairwise (· < ·) := by
  induction n generalizing s with
  | zero => simp
  | succ n ih =>
    rw [List.range'_succ]
    exact List.Pairwise.cons (fun m hm => (List.mem_range'_1.mp hm).1) (ih (s + 1))

lemma tasks_for_combo_seqs (group_tag : String) (stage_idx combo_idx : Nat)
    (urls imgs : List String) (histories : List (List String)) :
    ∀ (prompts : List String) (seq prompt_idx : Nat),
      (tasks_for_combo group_tag stage_idx combo_idx urls imgs histories
          seq prompt_idx prompts).map (fun t => t.sequence)
        = List.range' (seq + 1) prompts.length := by
  intro prompts
  induction prompts with
  | nil => intro seq prompt_idx; rfl
  | cons p rest ih =>
    intro seq prompt_idx
    simp only [tasks_for_combo, List.map_cons, List.length_cons, List.range'_succ]
    rw [ih (seq + 1) (prompt_idx + 1)]

lemma build_aux_seqs (group_tag : String) (stage_idx : Nat)
    (uploads : List (String × String)) :
    ∀ (triples : List (CombState × List String × List (List String)))
      (seq combo_idx : Nat),
      ((build_api_tasks_aux group_tag stage_idx uploads seq combo_idx triples).map
          (fun t => t.sequence)).Pairwise (· < ·)
      ∧ ∀ t ∈ build_api_tasks_aux group_tag stage_idx uploads seq combo_idx triples,
          seq < t.sequence := by
  intro triples
  induction triples with
  | nil => intro seq combo_idx; exact ⟨List.Pairwise.nil, by simp [build_api_tasks_aux]⟩
  | cons triple rest ih =>
    intro seq combo_idx
    rcases triple with ⟨state, prompts, histories⟩
    simp only [build_api_tasks_aux]
    by_cases hp : prompts.isEmpty
    · rw [if_pos hp]; exact ih seq (combo_idx + 1)
    · rw [if_neg hp]
      cases hres : resolve_urls uploads state.images with
      | none => exact ih seq (combo_idx + 1)
      | some urls =>
        dsimp only
        by_cases hu : urls.isEmpty
        · rw [if_pos hu]; exact ih seq (combo_idx + 1)
        · rw [if_neg hu]
          have hcombo := tasks_for_combo_seqs group_tag stage_idx combo_idx urls
            state.images histories prompts seq 1
          have hrest := ih (seq + prompts.length) (combo_idx + 1)
          constructor
          · rw [List.map_append, List.pairwise_append]
            refine ⟨by rw [hcombo]; exact range'_pairwise_lt _ _,
              (List.pairwise_map.mpr (List.pairwise_map.mp hrest.1)), ?_⟩
            intro a ha b hb
            have ha' : a ∈ List.range' (seq + 1) prompts.length := hcombo ▸ ha
            have hab : a < seq + prompts.length + 1 := by
              have := (List.mem_range'_1.mp ha').2; omega
            rcases List.mem_map.mp hb with ⟨t, ht, rfl⟩
            have := hrest.2 t ht
            omega
          · intro t ht
            rcases List.mem_append.mp ht with h1 | h2
            · have : t.sequence ∈ List.range' (seq + 1) prompts.length := by
                rw [← hcombo]; exact List.mem_map_of_mem _ h1
              have := (List.mem_range'_1.mp this).1; omega
            · have := hrest.2 t h2; omega

lemma successState_key (t : TaskInfo) (r : ApiReturn GenMetadata)
    (x : Nat × CombState) (h : successState t r = some x) : x.1 = t.sequence := by
  unfold successState at h
  cases hq : r.output_file with
  | none => rw [hq] at h; exact Option.noConfusion h
  | some f =>
    rw [hq] at h
    dsimp only at h
    by_cases hc : r.success && !(f == "")
    · rw [if_pos hc] at h; cases h; rfl
    · rw [if_neg hc] at h; exact Option.noConfusion h

lemma insertBySeq_perm (x : Nat × CombState) (l : List (Nat × CombState)) :
    (insertBySeq x l).Perm (x :: l) := by
  induction l with
  | nil => exact List.Perm.refl _
  | cons y ys ih =>
    simp only [insertBySeq]
    by_cases h : x.1 ≤ y.1
    · rw [if_pos h]
    · rw [if_neg h]
      exact List.Perm.trans (List.Perm.cons y ih) (List.Perm.swap x y ys)

lemma sortBySeq_perm (l : List (Nat × CombState)) : (sortBySeq l).Perm l := by
  induction l with
  | nil => exact List.Perm.refl _
  | cons x xs ih =>
    simp only [sortBySeq, List.foldr_cons]
    exact List.Perm.trans (insertBySeq_perm x _) (List.Perm.cons x ih)

lemma insertBySeq_sorted (x : Nat × CombState) (l : List (Nat × CombState))
    (h : l.Pairwise (fun a b => a.1 ≤ b.1)) :
    (insertBySeq x l).Pairwise (fun a b => a.1 ≤ b.1) := by
  induction l with
  | nil => exact List.pairwise_singleton _ _
  | cons y ys ih =>
    simp only [insertBySeq]
    rcases List.pairwise_cons.mp h with ⟨hy, hys⟩
    by_cases hxy : x.1 ≤ y.1
    · rw [if_pos hxy]
      refine List.Pairwise.cons ?_ h
      intro b hb
      rcases List.mem_cons.mp hb with rfl | hb2
      · exact hxy
      · exact le_trans hxy (hy b hb2)
    · rw [if_neg hxy]
      refine List.Pairwise.cons ?_ (ih hys)
      intro b hb
      have hperm := insertBySeq_perm x ys
      have hb' : b ∈ x :: ys := hperm.mem_iff.mp hb
      rcases List.mem_cons.mp hb' with rfl | hb2
      · omega
      · exact hy b hb2

lemma sortBySeq_sorted (l : List (Nat × CombState)) :
    (sortBySeq l).Pairwise (fun a b => a.1 ≤ b.1) := by
  induction l with
  | nil => exact List.Pairwise.nil
  | cons x xs ih =>
    simp only [sortBySeq, List.foldr_cons]
    exact insertBySeq_sorted x _ ih

lemma perm_pairwise_lt_eq {β : Type} :
    ∀ (l₁ l₂ : List (Nat × β)), l₁.Perm l₂ →
      l₁.Pairwise (fun a b => a.1 < b.1) → l₂.Pairwise (fun a b => a.1 < b.1) →
      l₁ = l₂ := by
  intro l₁
  induction l₁ with
  | nil => intro l₂ hp _ _; rw [hp.nil_eq]
  | cons a t₁ ih =>
    intro l₂ hp h₁ h₂
    cases l₂ with
    | nil => exact absurd hp.symm.nil_eq (by simp)
    | cons b t₂ =>
      have hab : a = b := by
        by_contra hne
        have ha2 : a ∈ b :: t₂ := hp.mem_iff.mp (by simp)
        have hb1 : b ∈ a :: t₁ := hp.symm.mem_iff.mp (by simp)
        rcases List.mem_cons.mp ha2 with rfl | ha3
        · exact hne rfl
        · rcases List.mem_cons.mp hb1 with rfl | hb3
          · exact hne rfl
          · have h1 := (List.pairwise_cons.mp h₁).1 b hb3
            have h2 := (List.pairwise_cons.mp h₂).1 a ha3
            omega
      subst hab
      have hperm2 : t₁.Perm t₂ := (List.perm_cons a).mp hp
      rw [ih t₂ hperm2 (List.pairwise_cons.mp h₁).2 (List.pairwise_cons.mp h₂).2]

/-- C10: for any completion order of a stage's tasks (any permutation of
the built task list paired with its deterministic results), the next
stage's input states are exactly the successful tasks' resulting states in
ascending sequence order — i.e. in the order the tasks were built — and the
built task list's sequence numbers are strictly increasing. -/
theorem spec_C10 (group_tag : String) (stage_idx : Nat)
    (uploads : List (String × String))
    (triples : List (CombState × List String × List (List String)))
    (res : TaskInfo → ApiReturn GenMetadata)
    (completed : List (TaskInfo × ApiReturn GenMetadata))
    (hperm : completed.Perm
      ((build_api_tasks group_tag stage_idx uploads triples).map (fun t => (t, res t)))) :
    next_states completed
      = (build_api_tasks group_tag stage_idx uploads triples).filterMap
          (fun t => (successState t (res t)).map Prod.snd)
    ∧ ((build_api_tasks group_tag stage_idx uploads triples).map
        (fun t => t.sequence)).Pairwise (· < ·) := by
  set tasks := build_api_tasks group_tag stage_idx uploads triples with htasks
  have hseqs : (tasks.map (fun t => t.sequence)).Pairwise (· < ·) :=
    (build_aux_seqs group_tag stage_idx uploads triples 0 1).1
  refine ⟨?_, hseqs⟩
  have hcanon : stage_success_outputs (tasks.map (fun t => (t, res t)))
      = tasks.filterMap (fun t => successState t (res t)) := by
    unfold stage_success_outputs
    rw [List.filterMap_map]
    rfl
  have htarget_lt : (tasks.filterMap (fun t => successState t (res t))).Pairwise
      (fun a b => a.1 < b.1) := by
    rw [List.pairwise_filterMap]
    refine (List.pairwise_map.mp hseqs).imp ?_
    intro t t' hlt x hx y hy
    rw [successState_key t (res t) x hx, successState_key t' (res t') y hy]
    exact hlt
  have hsso : (stage_success_outputs completed).Perm
      (tasks.filterMap (fun t => successState t (res t))) := by
    rw [← hcanon]
    exact List.Perm.filterMap _ hperm
  have hsort_perm : (sortBySeq (stage_success_outputs completed)).Perm
      (tasks.filterMap (fun t => successState t (res t))) :=
    (sortBySeq_perm _).trans hsso
  have hnodup : ((sortBySeq (stage_success_outputs completed)).map Prod.fst).Nodup := by
    refine ((hsort_perm.map Prod.fst).nodup_iff).mpr ?_
    have : (tasks.filterMap (fun t => successState t (res t))).Pairwise
        (fun a b => a.1 ≠ b.1) := htarget_lt.imp (fun h => Nat.ne_of_lt h)
    exact List.pairwise_map.mpr this
  have hsort_lt : (sortBySeq (stage_success_outputs completed)).Pairwise
      (fun a b => a.1 < b.1) := by
    have hle := sortBySeq_sorted (stage_success_outputs completed)
    have hne := List.pairwise_map.mp hnodup
    exact (hle.and hne).imp (fun h => by omega)
  have heq : sortBySeq (stage_success_outputs completed)
      = tasks.filterMap (fun t => successState t (res t)) :=
    perm_pairwise_lt_eq _ _ hsort_perm hsort_lt htarget_lt
  unfold next_states
  rw [heq, List.map_filterMap]

/-- Stage input triples for the C10 witness: two states with one prompt
each. -/
def c10Triples : List (CombState × List String × List (List String)) :=
  [(⟨["i1"], "", []⟩, ["p1"], [["p1"]]),
   (⟨["i2"], "", []⟩, ["p2"], [["p2"]])]

/-- Upload results for the C10 witness. -/
def c10Uploads : List (String × String) := [("i1", "u1"), ("i2", "u2")]

/-- Deterministic per-task results for the C10 witness: every task
succeeds. -/
def c10Res : TaskInfo → ApiReturn GenMetadata :=
  fun t => ⟨t.sequence, true, "生成成功", some "o.png", none, [], 1⟩

/-- Witness for C10: processing the two built tasks in reversed completion
order still yields the next-stage states in built (ascending-sequence)
order. -/
theorem spec_C10_witness :
    next_states (((build_api_tasks "G" 1 c10Uploads c10Triples).map
        (fun t => (t, c10Res t))).reverse)
      = (build_api_tasks "G" 1 c10Uploads c10Triples).filterMap
          (fun t => (successState t (c10Res t)).map Prod.snd)
    ∧ ((build_api_tasks "G" 1 c10Uploads c10Triples).map
        (fun t => t.sequence)).Pairwise (· < ·) :=
  spec_C10 "G" 1 c10Uploads c10Triples c10Res _ (List.reverse_perm _)

/-- The external collaborators and the cancellation flag, as oracles: the
Asset Store (`upload_file_zh`), the Generation Service keyed by (stage
index, task id, attempt), and the per-group cancellation flag read at the
n-th poll (`is_task_group_cancelled`). -/
structure Oracles where
  store : String → String → StoreOutcome
  gen : Nat → Nat → Nat → CallOutcome
  cancel : Nat → Bool

/-- Threaded run state: the shared upload cache, the number of cancellation
polls made so far, and ghost counters of Asset Store and Generation Service
invocations. -/
structure RunSt where
  cache : Cache
  polls : Nat
  storeCalls : Nat
  genCalls : Nat

/-- One `is_task_group_cancelled` poll. -/
def pollCancel (O : Oracles) (st : RunSt) : Bool × RunSt :=
  (O.cancel st.polls, { st with polls := st.polls + 1 })

/-- The per-completion cancellation polls of an executor loop: one poll per
completed worker result, stopping at the first positive check. -/
def pollAfterEach (O : Oracles) : Nat → RunSt → RunSt × Bool
  | 0, st => (st, false)
  | n + 1, st =>
    let p := pollCancel O st
    if p.1 then (p.2, true) else pollAfterEach O n p.2

/-- An upload phase (webui.py lines 312-343 and 785-810), sequentialised in
submission order: each image gets a round-robin key and goes through
`upload_single_image`; a key-assignment exception aborts with the raised
message.  All submitted uploads run to completion (the executor joins its
workers), so Asset Store calls are counted for every image. -/
def run_uploads (O : Oracles) (keys : List String) :
    List String → Nat → RunSt → Except (String × RunSt) (List (String × UploadRet) × RunSt)
  | [], _, st => .ok ([], st)
  | img :: rest, idx, st =>
    match get_api_key_for_task (idx : Int) keys with
    | .error e => .error (e, st)
    | .ok key =>
      let u := upload_single_image idx img key st.cache O.store
      let st2 : RunSt :=
        { st with cache := u.2.1, storeCalls := st.storeCalls + u.2.2 }
      match run_uploads O keys rest (idx + 1) st2 with
      | .error p => .error p
      | .ok (results, st3) => .ok ((img, u.1) :: results, st3)

/-- The API tasks of the single-stage runner (webui.py lines 362-376):
`(task_id, cdn_url, prompt, source_image)` per upload result × prompt. -/
def build_simple_tasks : List (String × String) → List String → Nat →
    List (Nat × String × String × String)
  | [], _, _ => []
  | (path, url) :: rest, prompts, tid =>
    (prompts.enum.map (fun pi => (tid + pi.1 + 1, url, pi.2, path)))
      ++ build_simple_tasks rest prompts (tid + prompts.length)

/-- The API phase of the single-stage runner (webui.py lines 385-435),
sequentialised: each task gets a round-robin key and runs
`call_banana_api`; `max_retries = 0` makes the result tuple `None`, whose
unpacking raises in the source. -/
def run_simple_api_calls (O : Oracles) (keys : List String)
    (model aspect output_dir : String) (max_retries : Nat) :
    List (Nat × String × String × String) → RunSt →
    Except (String × RunSt) (List (ApiReturn SingleMetadata) × RunSt)
  | [], st => .ok ([], st)
  | (tid, url, prompt, src) :: rest, st =>
    match get_api_key_for_task (tid : Int) keys with
    | .error e => .error (e, st)
    | .ok _ =>
      match call_banana_api tid url prompt (O.gen 0 tid) model aspect output_dir
          ("Task_" ++ toString tid) src max_retries with
      | none => .error ("cannot unpack non-iterable NoneType object", st)
      | some r =>
        let st2 : RunSt := { st with genCalls := st.genCalls + r.calls }
        match run_simple_api_calls O keys model aspect output_dir max_retries rest st2 with
        | .error p => .error p
        | .ok (results, st3) => .ok (r :: results, st3)

/-- Embedding of `process_task_group_async` (webui.py lines 264-449),
sequentialised: initialise, check the cancellation flag, upload all images,
then run one generation call per (image × prompt) and report the final
status; every cancellation poll point of the source is preserved in
order. -/
def run_task_group (O : Oracles) (images prompts all_api_keys : List String)
    (model aspect : String) (max_retries : Nat) (output_dir : String)
    (st0 : RunSt) : String × RunSt :=
  let p0 := pollCancel O st0
  if p0.1 then ("⛔ 用户已中止", p0.2)
  else
    match run_uploads O all_api_keys images 1 p0.2 with
    | .error (e, stE) => ("❌ 异常: " ++ e, stE)
    | .ok (upload_list, st2) =>
      let q := pollAfterEach O upload_list.length st2
      if q.2 then ("⛔ 用户已中止", q.1)
      else
        let upload_results := upload_list.filterMap (fun p =>
          if p.2.success then some (p.1, p.2.cdn_url.getD "") else none)
        if upload_results.isEmpty then ("❌ 所有图像上传失败", q.1)
        else
          let p1 := pollCancel O q.1
          if p1.1 then ("⛔ 用户已中止", p1.2)
          else
            let api_tasks := build_simple_tasks upload_results prompts 0
            match run_simple_api_calls O all_api_keys model aspect output_dir
                max_retries api_tasks p1.2 with
            | .error (e, stE) => ("❌ 异常: " ++ e, stE)
            | .ok (api_results, st5) =>
              let q2 := pollAfterEach O api_results.length st5
              if q2.2 then ("⛔ 用户已中止", q2.1)
              else
                ("✅ 完成: "
                  ++ toString (api_results.filter (fun r => r.success)).length
                  ++ "/" ++ toString api_results.length ++ " 成功", q2.1)

/-- The distinct-image collection of a stage (webui.py lines 766-770):
first-occurrence order, no duplicates. -/
def collect_unique_images (states : List CombState) : List String :=
  states.foldl (fun acc s =>
    s.images.foldl (fun acc2 img => if img ∈ acc2 then acc2 else acc2 ++ [img]) acc) []

/-- Outcome of one phase inside a stage: continue with a value, or stop the
whole run with a final status. -/
inductive StageStep (α : Type)
  | cont (a : α)
  | halt (status : String) (st : RunSt)

/-- The upload phase of one pipeline stage (webui.py lines 777-818):
skipped entirely when no images are needed; cancellation is polled before
the pool starts and after each completion; a stage whose needed uploads
all fail halts the run. -/
def stage_upload_phase (O : Oracles) (keys : List String) (stage_idx : Nat)
    (unique_images : List String) (st : RunSt) :
    StageStep (List (String × String) × RunSt) :=
  if unique_images.isEmpty then .cont ([], st)
  else
    let p := pollCancel O st
    if p.1 then .halt "⛔ 用户已中止" p.2
    else
      match run_uploads O keys unique_images 1 p.2 with
      | .error (e, stE) => .halt ("❌ 异常: " ++ e) stE
      | .ok (results, st2) =>
        let q := pollAfterEach O results.length st2
        if q.2 then .halt "⛔ 用户已中止" q.1
        else
          let upload_results := results.filterMap (fun r =>
            match r.2.cdn_url with
            | some url => if r.2.success && !(url == "") then some (r.1, url) else none
            | none => none)
          if upload_results.isEmpty then
            .halt ("❌ 阶段" ++ toString stage_idx ++ ": 上传失败") q.1
          else .cont (upload_results, q.1)

/-- The API phase of one pipeline stage (webui.py lines 879-902),
sequentialised: each task gets a round-robin key from its sequence number
and runs `call_banana_api_multi` with the stage's extra metadata. -/
def run_flex_api_calls (O : Oracles) (keys : List String)
    (model aspect output_dir : String) (max_retries stage_idx : Nat)
    (replace_prompt : Bool) :
    List TaskInfo → RunSt →
    Except (String × RunSt) (List (TaskInfo × ApiReturn GenMetadata) × RunSt)
  | [], st => .ok ([], st)
  | t :: rest, st =>
    match get_api_key_for_task (t.sequence : Int) keys with
    | .error e => .error (e, st)
    | .ok _ =>
      match call_banana_api_multi t.sequence t.cdn_urls t.prompt
          (O.gen stage_idx t.sequence) model aspect output_dir t.task_name
          t.source_images max_retries
          (some ⟨t.history, stage_idx, replace_prompt⟩) with
      | none => .error ("cannot unpack non-iterable NoneType object", st)
      | some r =>
        let st2 : RunSt := { st with genCalls := st.genCalls + r.calls }
        match run_flex_api_calls O keys model aspect output_dir max_retries
            stage_idx replace_prompt rest st2 with
        | .error p => .error p
        | .ok (results, st3) => .ok ((t, r) :: results, st3)

/-- The stage loop of `process_flexible_combinations_async` (webui.py
lines 706-953), sequentialised: per stage — poll cancellation, require
inputs, compute per-state prompts, upload needed images, build and run the
generation tasks, and chain the successful outputs into the next stage. -/
def run_stages (O : Oracles) (group_tag : String) (keys : List String)
    (model aspect : String) (max_retries : Nat) (output_dir : String) :
    List StagePlanEntry → List CombState → RunSt → String × RunSt
  | [], _, st => ("✅ 全部阶段完成", st)
  | stage :: rest, states, st =>
    let p := pollCancel O st
    if p.1 then ("⛔ 用户已中止", p.2)
    else if states.isEmpty then
      ("❌ 阶段" ++ toString stage.stage_index ++ ": 无可用输入", p.2)
    else
      let triples := states.map (fun s =>
        let pr := compute_stage_prompts stage.replace_prompt s.prompt_text
          s.prompt_history stage.suffixes
        (s, pr.1, pr.2))
      let unique_images := collect_unique_images states
      match stage_upload_phase O keys stage.stage_index unique_images p.2 with
      | .halt status stH => (status, stH)
      | .cont (upload_results, st2) =>
        let tasks := build_api_tasks group_tag stage.stage_index upload_results triples
        if tasks.isEmpty then
          ("⚠️ 阶段" ++ toString stage.stage_index ++ ": 无任务", st2)
        else
          let p2 := pollCancel O st2
          if p2.1 then ("⛔ 用户已中止", p2.2)
          else
            match run_flex_api_calls O keys model aspect output_dir max_retries
                stage.stage_index stage.replace_prompt tasks p2.2 with
            | .error (e, stE) => ("❌ 异常: " ++ e, stE)
            | .ok (completed, st4) =>
              let q := pollAfterEach O completed.length st4
              if q.2 then ("⛔ 用户已中止", q.1)
              else
                if (stage_success_outputs completed).isEmpty then
                  ("❌ 阶段" ++ toString stage.stage_index ++ ": 全部任务失败", q.1)
                else
                  run_stages O group_tag keys model aspect max_retries output_dir
                    rest (next_states completed) q.1

/-- Embedding of `process_flexible_combinations_async` (webui.py lines
660-964): an empty stage plan fails immediately, otherwise the initial
combinations become states with empty prompts and the stage loop runs. -/
def run_flexible (O : Oracles) (group_tag : String)
    (initial_combinations : List (List String)) (stage_plan : List StagePlanEntry)
    (keys : List String) (model aspect : String) (max_retries : Nat)
    (output_dir : String) (st0 : RunSt) : String × RunSt :=
  if stage_plan.isEmpty then ("❌ 未找到有效阶段", st0)
  else
    run_stages O group_tag keys model aspect max_retries output_dir stage_plan
      (initial_combinations.map (fun combo => ⟨combo, "", []⟩)) st0

/-- C8: a task group whose cancellation flag is already set when its
background run begins is moved straight to the cancelled status, with zero
Asset Store calls and zero Generation Service calls — for the staged runner
(whose stage plan is non-empty, as guaranteed by the validating submitter)
and unconditionally for the single-stage runner. -/
theorem spec_C8 :
    (∀ (O : Oracles) (group_tag : String) (combos : List (List String))
        (plan : List StagePlanEntry) (keys : List String) (model aspect : String)
        (max_retries : Nat) (output_dir : String) (cache : Cache),
        plan ≠ [] → (∀ n, O.cancel n = true) →
        (run_flexible O group_tag combos plan keys model aspect max_retries
            output_dir ⟨cache, 0, 0, 0⟩).1 = "⛔ 用户已中止"
        ∧ (run_flexible O group_tag combos plan keys model aspect max_retries
            output_dir ⟨cache, 0, 0, 0⟩).2.storeCalls = 0
        ∧ (run_flexible O group_tag combos plan keys model aspect max_retries
            output_dir ⟨cache, 0, 0, 0⟩).2.genCalls = 0)
    ∧ (∀ (O : Oracles) (images prompts keys : List String) (model aspect : String)
        (max_retries : Nat) (output_dir : String) (cache : Cache),
        (∀ n, O.cancel n = true) →
        (run_task_group O images prompts keys model aspect max_retries
            output_dir ⟨cache, 0, 0, 0⟩).1 = "⛔ 用户已中止"
        ∧ (run_task_group O images prompts keys model aspect max_retries
            output_dir ⟨cache, 0, 0, 0⟩).2.storeCalls = 0
        ∧ (run_task_group O images prompts keys model aspect max_retries
            output_dir ⟨cache, 0, 0, 0⟩).2.genCalls = 0) := by
  constructor
  · intro O group_tag combos plan keys model aspect max_retries output_dir cache
      hplan hc
    match plan with
    | stage :: rest =>
      simp [run_flexible, run_stages, pollCancel, hc 0]
  · intro O images prompts keys model aspect max_retries output_dir cache hc
    simp [run_task_group, pollCancel, hc 0]

/-- An always-cancelled oracle set for the C8 witness. -/
def c8Oracles : Oracles :=
  { store := fun _ _ => .url "u", gen := fun _ _ _ => .result ["img"] [],
    cancel := fun _ => true }

/-- Witness for C8: with the flag pre-set, both runners report the
cancelled status and make zero collaborator calls on concrete inputs. -/
theorem spec_C8_witness :
    ((run_flexible c8Oracles "G" [["i1"]]
        [⟨1, [], ["p"], 1, "", false, false⟩] ["k"] "m" "ar" 3 "out"
        ⟨c7Cache, 0, 0, 0⟩).1 = "⛔ 用户已中止"
      ∧ (run_flexible c8Oracles "G" [["i1"]]
          [⟨1, [], ["p"], 1, "", false, false⟩] ["k"] "m" "ar" 3 "out"
          ⟨c7Cache, 0, 0, 0⟩).2.storeCalls = 0
      ∧ (run_flexible c8Oracles "G" [["i1"]]
          [⟨1, [], ["p"], 1, "", false, false⟩] ["k"] "m" "ar" 3 "out"
          ⟨c7Cache, 0, 0, 0⟩).2.genCalls = 0)
    ∧ ((run_task_group c8Oracles ["i1"] ["p"] ["k"] "m" "ar" 3 "out"
          ⟨c7Cache, 0, 0, 0⟩).1 = "⛔ 用户已中止"
      ∧ (run_task_group c8Oracles ["i1"] ["p"] ["k"] "m" "ar" 3 "out"
          ⟨c7Cache, 0, 0, 0⟩).2.storeCalls = 0
      ∧ (run_task_group c8Oracles ["i1"] ["p"] ["k"] "m" "ar" 3 "out"
          ⟨c7Cache, 0, 0, 0⟩).2.genCalls = 0) :=
  ⟨spec_C8.1 c8Oracles "G" [["i1"]] [⟨1, [], ["p"], 1, "", false, false⟩]
      ["k"] "m" "ar" 3 "out" c7Cache (by simp) (fun n => rfl),
   spec_C8.2 c8Oracles ["i1"] ["p"] ["k"] "m" "ar" 3 "out" c7Cache (fun n => rfl)⟩

end Banana
